import Mathlib

/-!
Verification of the PoliTopicsRecap task-queue processor against its
natural-language specification.

The TypeScript sources are shallowly embedded: JavaScript runtime values
are modelled by the inductive `JVal` (JSON-style values, where a number
carries a finiteness flag so that NaN and the infinities are
representable), machine numbers by `Rat` and `Int`, fallible code by
`Option`/`Except`, and the effectful queue/storage code by pure functions
that return an explicit list of emitted effects together with a
thrown/completed flag.  Definitions keep the source names.
-/

namespace PoliTopics

mutual

/-- JavaScript runtime value as it occurs in this code base: the JSON
values plus non-finite numbers (a `jnum` whose first argument is `false`
stands for NaN or an infinity; its rational payload is then irrelevant).
`undefined` is represented by `Option.none` at use sites (absent object
fields), never as a `JVal` itself.  Arrays and objects recurse through
the companion types `JArr`/`JObj` (isomorphic to lists) so that
decidable equality can be derived. -/
inductive JVal : Type
  | jnull : JVal
  | jbool : Bool → JVal
  | jnum  : Bool → Rat → JVal
  | jstr  : String → JVal
  | jarr  : JArr → JVal
  | jobj  : JObj → JVal
deriving DecidableEq

/-- Spine of a JavaScript array value. -/
inductive JArr : Type
  | nil : JArr
  | cons : JVal → JArr → JArr
deriving DecidableEq

/-- Spine of a JavaScript object value: ordered string-keyed fields. -/
inductive JObj : Type
  | nil : JObj
  | cons : String → JVal → JObj → JObj
deriving DecidableEq

end

/-- View of an array spine as a list. -/
def JArr.toList : JArr → List JVal
  | JArr.nil => []
  | JArr.cons x xs => x :: xs.toList

/-- Builds an array spine from a list. -/
def JArr.ofList : List JVal → JArr
  | [] => JArr.nil
  | x :: xs => JArr.cons x (JArr.ofList xs)

/-- View of an object spine as an ordered field list. -/
def JObj.toList : JObj → List (String × JVal)
  | JObj.nil => []
  | JObj.cons k v fs => (k, v) :: fs.toList

/-- Builds an object spine from an ordered field list. -/
def JObj.ofList : List (String × JVal) → JObj
  | [] => JObj.nil
  | (k, v) :: fs => JObj.cons k v (JObj.ofList fs)

namespace JVal

/-- Array literal written from a list. -/
def arr (xs : List JVal) : JVal := JVal.jarr (JArr.ofList xs)

/-- Object literal written from an ordered field list. -/
def obj (fs : List (String × JVal)) : JVal := JVal.jobj (JObj.ofList fs)

/-- Property read `v[key]` for a string key: only plain objects carry
string-named fields in this code base; reading any other value (or a
missing field) yields `undefined`, i.e. `none`. -/
def jget : JVal → String → Option JVal
  | jobj fs, key => ((fs.toList).find? (fun p => p.1 = key)).map (·.2)
  | _, _ => none

/-- The `isRecord` helper of the codec: `typeof value === "object" &&
value !== null`.  In JavaScript arrays also satisfy this test. -/
def isRecord : JVal → Bool
  | jobj _ => true
  | jarr _ => true
  | _ => false

/-- String membership test used when filtering `chunk_result_urls`. -/
def isStr : JVal → Bool
  | jstr _ => true
  | _ => false

end JVal

open JVal

/-- JavaScript whitespace test for `String.prototype.trim` (the ASCII
whitespace characters; the Unicode space classes do not occur in this
code base). -/
def isJsSpace (c : Char) : Bool :=
  c = ' ' || c = '\t' || c = '\n' || c = '\r'

/-- JavaScript `String.prototype.trim`. -/
def jsTrim (s : String) : String :=
  String.mk (((s.data.dropWhile isJsSpace).reverse.dropWhile isJsSpace).reverse)

/-- JavaScript `String.prototype.startsWith`. -/
def strStartsWith (s pre : String) : Bool :=
  pre.data.isPrefixOf s.data

/-- Decimal numeral parser modelling the core of the JavaScript
`Number(string)` coercion on the string forms this code base can meet:
an optional sign followed by digits with an optional fractional part.
Exotic forms (hex, exponents, `Infinity`) are not produced by any caller
here and are mapped to NaN (`none`). -/
def strToNumberCore (cs : List Char) : Option Rat :=
  let readDigits : List Char → Option (Nat × Nat) := fun ds =>
    if ds = [] then none
    else if ds.all Char.isDigit then
      some (ds.foldl (fun a c => a * 10 + (c.toNat - 48)) 0, ds.length)
    else none
  let unsigned : List Char → Option Rat := fun ds =>
    match ds.splitOn '.' with
    | [ip] => (readDigits ip).map (fun p => (p.1 : Rat))
    | [ip, fp] =>
        match readDigits ip, readDigits fp with
        | some i, some f => some ((i.1 : Rat) + (f.1 : Rat) / ((10 : Rat) ^ f.2))
        | _, _ => none
    | _ => none
  match cs with
  | '-' :: rest => (unsigned rest).map (fun q => -q)
  | '+' :: rest => unsigned rest
  | _ => unsigned cs

/-- JavaScript `Number(value)` coercion restricted to the shapes that can
reach it here; the result `none` stands for a non-finite outcome (NaN).
An empty or all-whitespace string coerces to `0`, as does `null` and the
empty array; plain objects and non-trivial arrays coerce to NaN (the
single-element-array stringification corner of JavaScript is not
exercised by this code and is mapped to NaN). -/
def jsNumber : Option JVal → Option Rat
  | none => none
  | some JVal.jnull => some 0
  | some (JVal.jbool b) => some (if b then 1 else 0)
  | some (JVal.jnum true q) => some q
  | some (JVal.jnum false _) => none
  | some (JVal.jstr s) =>
      let t := jsTrim s
      if t = "" then some 0 else strToNumberCore t.data
  | some (JVal.jarr JArr.nil) => some 0
  | some (JVal.jarr (JArr.cons _ _)) => none
  | some (JVal.jobj _) => none

/-- Embeds `normalizeRetryAttempts` of `src/sqs/map.ts` (the reduce codec
carries an identical copy): a finite non-negative number is floored;
otherwise the value is coerced with `Number(...)` and floored when that
yields a finite non-negative result; everything else defaults to `0`. -/
def normalizeRetryAttempts (v : Option JVal) : Int :=
  match v with
  | some (JVal.jnum true q) =>
      if 0 ≤ q then ⌊q⌋
      else match jsNumber v with
        | some p => if 0 ≤ p then ⌊p⌋ else 0
        | none => 0
  | _ =>
      match jsNumber v with
      | some p => if 0 ≤ p then ⌊p⌋ else 0
      | none => 0

/-- Overwrites (or appends) one string-keyed field, modelling the object
spread `\x7b ...body, key: value \x7d`.  Spreading an array into an
object literal keeps none of the array elements under string keys, so
for an array input only the overwritten field survives as far as
`jget` is concerned. -/
def setField (v : JVal) (key : String) (val : JVal) : JVal :=
  match v with
  | JVal.jobj fs =>
      let l := fs.toList
      if l.any (fun p => p.1 = key) then
        JVal.obj (l.map (fun p => if p.1 = key then (p.1, val) else p))
      else
        JVal.obj (l ++ [(key, val)])
  | JVal.jarr _ => JVal.obj [(key, val)]
  | _ => v

/-- Typed map task message, after the codec has accepted it
(`MapPromptTaskMessage` in `src/sqs/map.ts`). -/
structure MapPromptTaskMessage where
  url : String
  result_url : String
  meta : Option JVal
  llm : String
  llmModel : String
  retryAttempts : Int
  retryMs_in : Rat
deriving DecidableEq

/-- Meeting metadata carried by a reduce task message. -/
structure Meeting where
  issueID : String
  nameOfMeeting : String
  nameOfHouse : String
  date : String
  numberOfSpeeches : Rat
deriving DecidableEq

/-- Typed reduce task message, after the codec has accepted it
(`ReducePromptTaskMessage` in `src/sqs/reduce.ts`). -/
structure ReducePromptTaskMessage where
  chunk_result_urls : List String
  meta : Option JVal
  prompt : String
  issueID : String
  meeting : Meeting
  llm : String
  llmModel : String
  retryAttempts : Int
  retryMs_in : Rat
deriving DecidableEq

/-- Checks that a field holds a finite number (the codec helper
`isFiniteNumber`). -/
def isFiniteNumField (v : Option JVal) : Bool :=
  match v with
  | some (JVal.jnum true _) => true
  | _ => false

/-- Reads a finite number field, defaulting to `0` (only used after the
corresponding validator has already accepted the field). -/
def numField (v : Option JVal) : Rat :=
  match v with
  | some (JVal.jnum true q) => q
  | _ => 0

/-- Reads a string field, defaulting to the empty string (only used
after the corresponding validator has already accepted the field). -/
def strField (v : Option JVal) : String :=
  match v with
  | some (JVal.jstr s) => s
  | _ => ""

/-- Embeds `isMapPromptTaskMessage`: every required field is checked for
type and, where applicable, non-emptiness / the `s3://` scheme;
`meta` may be absent but must be an object when present; the two retry
numbers must be finite and non-negative. -/
def isMapPromptTaskMessage (v : JVal) : Bool :=
  isRecord v
  && (jget v "type" = some (JVal.jstr "map") : Bool)
  && (match jget v "url" with
      | some (JVal.jstr s) => strStartsWith s "s3://"
      | _ => false)
  && (match jget v "result_url" with
      | some (JVal.jstr s) => strStartsWith s "s3://"
      | _ => false)
  && (match jget v "llm" with
      | some (JVal.jstr s) => s ≠ ""
      | _ => false)
  && (match jget v "llmModel" with
      | some (JVal.jstr s) => s ≠ ""
      | _ => false)
  && (match jget v "meta" with
      | none => true
      | some m => isRecord m)
  && (isFiniteNumField (jget v "retryAttempts") && 0 ≤ numField (jget v "retryAttempts"))
  && (isFiniteNumField (jget v "retryMs_in") && 0 ≤ numField (jget v "retryMs_in"))

/-- Meeting validator of the reduce codec (`isMeeting`). -/
def isMeetingVal (v : Option JVal) : Bool :=
  match v with
  | some m =>
      isRecord m
      && (match jget m "issueID" with | some (JVal.jstr _) => true | _ => false)
      && (match jget m "nameOfMeeting" with | some (JVal.jstr _) => true | _ => false)
      && (match jget m "nameOfHouse" with | some (JVal.jstr _) => true | _ => false)
      && (match jget m "date" with | some (JVal.jstr _) => true | _ => false)
      && isFiniteNumField (jget m "numberOfSpeeches")
  | none => false

/-- Embeds `isReducePromptTaskMessage`. -/
def isReducePromptTaskMessage (v : JVal) : Bool :=
  isRecord v
  && (jget v "type" = some (JVal.jstr "reduce") : Bool)
  && (match jget v "chunk_result_urls" with
      | some (JVal.jarr xs) =>
          !xs.toList.isEmpty && xs.toList.all (fun u =>
            match u with
            | JVal.jstr s => strStartsWith s "s3://"
            | _ => false)
      | _ => false)
  && (match jget v "meta" with
      | none => true
      | some m => isRecord m)
  && (match jget v "prompt" with
      | some (JVal.jstr s) => s ≠ ""
      | _ => false)
  && (match jget v "issueID" with
      | some (JVal.jstr s) => s ≠ ""
      | _ => false)
  && isMeetingVal (jget v "meeting")
  && (match jget v "llm" with
      | some (JVal.jstr s) => s ≠ ""
      | _ => false)
  && (match jget v "llmModel" with
      | some (JVal.jstr s) => s ≠ ""
      | _ => false)
  && (isFiniteNumField (jget v "retryAttempts") && 0 ≤ numField (jget v "retryAttempts"))
  && (isFiniteNumField (jget v "retryMs_in") && 0 ≤ numField (jget v "retryMs_in"))

/-- Extraction of the typed map message from a validated payload. -/
def extractMapMessage (n : JVal) : MapPromptTaskMessage :=
  { url := strField (jget n "url")
    result_url := strField (jget n "result_url")
    meta := jget n "meta"
    llm := strField (jget n "llm")
    llmModel := strField (jget n "llmModel")
    retryAttempts := ⌊numField (jget n "retryAttempts")⌋
    retryMs_in := numField (jget n "retryMs_in") }

/-- Embeds `parseMapPromptTaskMessage`: build the normalized payload with
the retry counter rewritten by `normalizeRetryAttempts`, then accept it
iff the validator passes (`none` models the thrown
`Invalid map prompt task message`). -/
def parseMapPromptTaskMessage (v : JVal) : Option MapPromptTaskMessage :=
  if isRecord v && (jget v "type" = some (JVal.jstr "map") : Bool) then
    let n := setField v "retryAttempts"
      (JVal.jnum true (normalizeRetryAttempts (jget v "retryAttempts") : Rat))
    if isMapPromptTaskMessage n then some (extractMapMessage n) else none
  else none

/-- Extraction of the typed meeting record from a validated payload. -/
def extractMeeting (v : Option JVal) : Meeting :=
  match v with
  | some m =>
      { issueID := strField (jget m "issueID")
        nameOfMeeting := strField (jget m "nameOfMeeting")
        nameOfHouse := strField (jget m "nameOfHouse")
        date := strField (jget m "date")
        numberOfSpeeches := numField (jget m "numberOfSpeeches") }
  | none => { issueID := "", nameOfMeeting := "", nameOfHouse := "", date := "",
              numberOfSpeeches := 0 }

/-- Extraction of the typed reduce message from a validated payload. -/
def extractReduceMessage (n : JVal) : ReducePromptTaskMessage :=
  { chunk_result_urls :=
      (match jget n "chunk_result_urls" with
       | some (JVal.jarr xs) => xs.toList.filterMap (fun u => match u with
           | JVal.jstr s => some s
           | _ => none)
       | _ => [])
    meta := jget n "meta"
    prompt := strField (jget n "prompt")
    issueID := strField (jget n "issueID")
    meeting := extractMeeting (jget n "meeting")
    llm := strField (jget n "llm")
    llmModel := strField (jget n "llmModel")
    retryAttempts := ⌊numField (jget n "retryAttempts")⌋
    retryMs_in := numField (jget n "retryMs_in") }

/-- Embeds `parseReducePromptTaskMessage`: normalize the retry counter
and keep only the string entries of `chunk_result_urls` (a missing or
non-array field becomes the empty list, which the validator then
rejects for being empty), then accept iff the validator passes. -/
def parseReducePromptTaskMessage (v : JVal) : Option ReducePromptTaskMessage :=
  if isRecord v && (jget v "type" = some (JVal.jstr "reduce") : Bool) then
    let curls : JVal :=
      match jget v "chunk_result_urls" with
      | some (JVal.jarr xs) => JVal.arr (xs.toList.filter isStr)
      | _ => JVal.arr []
    let n := setField
      (setField v "retryAttempts"
        (JVal.jnum true (normalizeRetryAttempts (jget v "retryAttempts") : Rat)))
      "chunk_result_urls" curls
    if isReducePromptTaskMessage n then some (extractReduceMessage n) else none
  else none

/-- Tagged union of the two accepted task variants. -/
inductive PromptTaskMessage : Type
  | map (m : MapPromptTaskMessage) : PromptTaskMessage
  | reduce (m : ReducePromptTaskMessage) : PromptTaskMessage
deriving DecidableEq

/-- Embeds `parsePromptTaskMessage` (the dispatch on the `type`
discriminant appended to `src/dynamoDB/storeData.ts`): the raw queue
body, already run through `JSON.parse`, is routed to the variant codec
named by its discriminant; any other discriminant (or none) throws,
modelled by `none`. -/
def parsePromptTaskMessage (v : JVal) : Option PromptTaskMessage :=
  if jget v "type" = some (JVal.jstr "map") then
    (parseMapPromptTaskMessage v).map PromptTaskMessage.map
  else if jget v "type" = some (JVal.jstr "reduce") then
    (parseReducePromptTaskMessage v).map PromptTaskMessage.reduce
  else none

/-- Outcome of the handler loop for one record, as far as the codec is
concerned: a record that fails to parse (or names an unsupported
generator) is acknowledged and dropped; an accepted one is dispatched to
the matching executor. -/
inductive HandlerAction : Type
  | dropDelete : HandlerAction
  | dispatch (m : PromptTaskMessage) : HandlerAction
deriving DecidableEq

/-- Generator name carried by either variant. -/
def PromptTaskMessage.llmOf : PromptTaskMessage → String
  | PromptTaskMessage.map m => m.llm
  | PromptTaskMessage.reduce m => m.llm

/-- Embeds the per-record dispatch of `lambda_handler.ts`: a parse
failure is caught and answered with `deleteMessage` (drop, never
requeue); a parsed message with an unsupported generator is also
dropped; otherwise the message reaches an executor. -/
def handleRecordAction (v : JVal) : HandlerAction :=
  match parsePromptTaskMessage v with
  | none => HandlerAction.dropDelete
  | some m =>
      if m.llmOf = "gemini" || m.llmOf = "fake" then HandlerAction.dispatch m
      else HandlerAction.dropDelete


mutual

/-- Canonical form of a JavaScript value under `JSON.stringify`: a
non-finite number serializes as `null`, recursively.  Two values that
`JSON.parse` can produce (in particular every chunk element and every
parsed generator field in this code base) have equal `JSON.stringify`
output exactly when their canonical forms are equal, so the
stringify-keyed dedupe below uses the canonical form as its key. -/
def canon : JVal → JVal
  | JVal.jnum false _ => JVal.jnull
  | JVal.jarr a => JVal.jarr (canonArr a)
  | JVal.jobj o => JVal.jobj (canonObj o)
  | v => v

/-- Canonical form, mapped across an array spine. -/
def canonArr : JArr → JArr
  | JArr.nil => JArr.nil
  | JArr.cons x xs => JArr.cons (canon x) (canonArr xs)

/-- Canonical form, mapped across an object spine. -/
def canonObj : JObj → JObj
  | JObj.nil => JObj.nil
  | JObj.cons k v fs => JObj.cons k (canon v) (canonObj fs)

end

/-- Key-driven dedupe loop shared by `dedupeByStringify` and
`collectArrayFieldTyped`: keep an element iff its key has not been seen,
accumulating seen keys front-to-back (the `Set` of the source). -/
def dedupeGo (k : JVal → JVal) (seen : List JVal) : List JVal → List JVal
  | [] => []
  | x :: xs =>
      if k x ∈ seen then dedupeGo k seen xs
      else x :: dedupeGo k (k x :: seen) xs

/-- Embeds `dedupeByStringify` of `processReduceRecord.ts`: first
occurrence wins, keyed by `JSON.stringify` (modelled by `canon`). -/
def dedupeByStringify (l : List JVal) : List JVal := dedupeGo canon [] l

/-- Embeds `collectArrayFieldTyped` at its call sites (no `keySelector`
is ever supplied in this code base): flatten the named field across all
chunk results, keeping only array-valued fields, then dedupe by
stringify key. -/
def collectArrayFieldTyped (results : List JVal) (field : String) : List JVal :=
  let flat := results.flatMap (fun chunk =>
    match jget chunk field with
    | some (JVal.jarr xs) => xs.toList
    | _ => [])
  dedupeGo canon [] flat

/-- Embeds `parseLLMJson`: the generator output is `JSON.parse`d (the
already-parsed outcome is the argument; `none` models a parse throw) and
kept only when it is a plain non-null, non-array object; otherwise the
empty partial record is used. -/
def parseLLMJson (parsed : Option JVal) : JVal :=
  match parsed with
  | some (JVal.jobj o) => JVal.jobj o
  | _ => JVal.obj []

/-- JavaScript `x ?? d` where `x` is a property read (`none` being
`undefined`). -/
def nvl (v : Option JVal) (d : JVal) : JVal :=
  match v with
  | none => d
  | some JVal.jnull => d
  | some x => x

/-- JavaScript `x ?? y` where both sides may be `undefined`. -/
def nvlOpt (v : Option JVal) (d : Option JVal) : Option JVal :=
  match v with
  | none => d
  | some JVal.jnull => d
  | some x => some x

/-- Array spread `[...(x ?? [])]` of a property read: `undefined` and
`null` spread as empty, arrays as their elements, strings as their
characters (strings are iterable in JavaScript); spreading any other
value throws a `TypeError`, modelled by `none`. -/
def spreadOrEmpty (v : Option JVal) : Option (List JVal) :=
  match v with
  | none => some []
  | some JVal.jnull => some []
  | some (JVal.jarr xs) => some xs.toList
  | some (JVal.jstr s) => some (s.data.map (fun c => JVal.jstr (String.mk [c])))
  | some _ => none

/-- The flattened per-field extras computed by the reduce executor
before merging (`extras` in `processReduceRecord`). -/
structure ChunkExtras where
  dialogs : List JVal
  terms : List JVal
  keywords : List JVal
  participants : List JVal
deriving DecidableEq

/-- Extras as computed in step 5 of `processReduceRecord`. -/
def chunkExtras (chunkResults : List JVal) : ChunkExtras :=
  { dialogs := collectArrayFieldTyped chunkResults "dialogs"
    terms := collectArrayFieldTyped chunkResults "terms"
    keywords := collectArrayFieldTyped chunkResults "keywords"
    participants := collectArrayFieldTyped chunkResults "participants" }

/-- Runtime shape of the article assembled by `buildArticle`: the id,
date and meeting names always come from the queue message (strings by
the codec), while the generator-supplied fields keep whatever runtime
value the parsed JSON carried (`Option` marking possibly-`undefined`
pass-through fields). -/
structure ArticleJ where
  id : String
  title : JVal
  date : String
  month : JVal
  imageKind : Option JVal
  session : Option JVal
  nameOfHouse : String
  nameOfMeeting : String
  categories : JVal
  description : JVal
  summary : Option JVal
  soft_summary : Option JVal
  middle_summary : JVal
  dialogs : List JVal
  participants : List JVal
  keywords : List JVal
  terms : List JVal
deriving DecidableEq

/-- Embeds `buildArticle` of `processReduceRecord.ts`.  The typed
message guarantees `meeting.date` is a string, so the `nowIso` fallback
for `month` is dead and not modelled.  The reduce message type carries
no `meeting.session`, so the `?? (message as any)?.meeting?.session`
fallback is `undefined`.  A present but non-iterable generator value in
one of the four array fields makes the spread throw (`none`). -/
def buildArticle (base : JVal) (extras : ChunkExtras)
    (message : ReducePromptTaskMessage) : Option ArticleJ := do
  let meeting := message.meeting
  let bDialogs ← spreadOrEmpty (jget base "dialogs")
  let bParticipants ← spreadOrEmpty (jget base "participants")
  let bKeywords ← spreadOrEmpty (jget base "keywords")
  let bTerms ← spreadOrEmpty (jget base "terms")
  some
    { id := meeting.issueID
      title := nvl (jget base "title") (JVal.jstr meeting.nameOfMeeting)
      date := meeting.date
      month := nvl (jget base "month") (JVal.jstr (meeting.date.take 7))
      imageKind := jget base "imageKind"
      session := nvlOpt (jget base "session") none
      nameOfHouse := meeting.nameOfHouse
      nameOfMeeting := meeting.nameOfMeeting
      categories := nvl (jget base "categories") (JVal.arr [])
      description := nvl (jget base "description") (JVal.jstr "")
      summary := jget base "summary"
      soft_summary := jget base "soft_summary"
      middle_summary := nvl (jget base "middle_summary") (JVal.arr [])
      dialogs := dedupeByStringify (bDialogs ++ extras.dialogs)
      participants := dedupeByStringify (bParticipants ++ extras.participants)
      keywords := dedupeByStringify (bKeywords ++ extras.keywords)
      terms := dedupeByStringify (bTerms ++ extras.terms) }

/-- Effects observable on the queue / generator / record store during one
record-processing call. -/
inductive SqsEvent : Type
  | send (payload : PromptTaskMessage) (delaySeconds : Int) : SqsEvent
  | ack : SqsEvent
  | visibility (timeoutSeconds : Int) : SqsEvent
  | generate (prompt : String) : SqsEvent
  | persist (a : ArticleJ) : SqsEvent
deriving DecidableEq

/-- The transport maximum for a publish delay (`MAX_SQS_DELAY_SECONDS`). -/
def MAX_SQS_DELAY_SECONDS : Int := 900

/-- Fallback visibility timeout (`FIVE_MINUTES_SECONDS`). -/
def FIVE_MINUTES_SECONDS : Int := 300

/-- Copy of the message with the attempt counter incremented, as built by
the spread in `requeueWithDelay`. -/
def bumpRetryAttempts : PromptTaskMessage → PromptTaskMessage
  | PromptTaskMessage.map m =>
      PromptTaskMessage.map { m with retryAttempts := m.retryAttempts + 1 }
  | PromptTaskMessage.reduce m =>
      PromptTaskMessage.reduce { m with retryAttempts := m.retryAttempts + 1 }

/-- The delay actually passed to the transport:
`Math.min(900, Math.max(0, Math.floor(delaySeconds)))`. -/
def safeDelaySeconds (delaySeconds : Rat) : Int :=
  min MAX_SQS_DELAY_SECONDS (max 0 ⌊delaySeconds⌋)

/-- Embeds `requeueWithDelay` of `sqsActions.ts`.  `sendOk` is the
environment fact of whether the publish call succeeds.  On success the
copy is published with the clamped delay and only then the original is
acknowledged; on publish failure the original is left in place, its
visibility is extended to the clamped delay (or the five-minute default
when that clamp is zero, via JavaScript falsiness of `0`), and the error
propagates (second component `true`).  The final `deleteMessage` of the
success path is modelled as succeeding. -/
def requeueWithDelay (sendOk : Bool) (message : PromptTaskMessage)
    (delaySeconds : Rat) : List SqsEvent × Bool :=
  let payload := bumpRetryAttempts message
  let safeDelay := safeDelaySeconds delaySeconds
  if sendOk then
    ([SqsEvent.send payload safeDelay, SqsEvent.ack], false)
  else
    ([SqsEvent.visibility (if safeDelay = 0 then FIVE_MINUTES_SECONDS else safeDelay)], true)

/-- Modelled from the spec: the configuration surface of `utils/config.ts`
is not among the sources; only the two backoff fields consumed by the
retry policy (spec section 6: backoff base/cap seconds) are modelled. -/
structure Config where
  backoffBaseSeconds : Rat
  backoffCapSeconds : Rat
deriving DecidableEq

/-- The `retryAfterSeconds` argument of `pickDelaySeconds`: absent
(`undefined`), a non-finite number, or a finite number of seconds. -/
inductive RetryAfterHint : Type
  | noneGiven : RetryAfterHint
  | nonFinite : RetryAfterHint
  | finite (seconds : Rat) : RetryAfterHint
deriving DecidableEq

/-- Embeds `clampDelaySeconds` of `utils/rateLimiter.ts`. -/
def clampDelaySeconds (config : Config) (delaySeconds : Rat) : Rat :=
  min (max 0 delaySeconds) config.backoffCapSeconds

/-- Embeds `pickDelaySeconds` of `utils/rateLimiter.ts`; `rand` is the
`Math.random()` sample (uniform on `[0, 1)`). -/
def pickDelaySeconds (config : Config) (retryAfterSeconds : RetryAfterHint)
    (attempt : Int) (rand : Rat) : Rat :=
  match retryAfterSeconds with
  | RetryAfterHint.finite q => clampDelaySeconds config q
  | _ =>
      let maxDelay := min config.backoffCapSeconds
        (config.backoffBaseSeconds * (2 : Rat) ^ (attempt - 1))
      rand * maxDelay

/-- Outcome of one HEAD request against the blob store: success, or an
error value carrying the HTTP status plus the `name` and `Code` fields
inspected by `ensureObjectExists`. -/
inductive HeadOutcome : Type
  | ok : HeadOutcome
  | errored (status : Option Int) (name : Option String) (codeV : Option String) : HeadOutcome
deriving DecidableEq

/-- Embeds `ensureObjectExists` of `utils/s3.ts`: `true` on a successful
HEAD; `false` for 404 / `NotFound` errors and for 403; any other error
is rethrown (`none`). -/
def ensureObjectExists : HeadOutcome → Option Bool
  | HeadOutcome.ok => some true
  | HeadOutcome.errored status name codeV =>
      if status = some 404 || name = some "NotFound" || codeV = some "NotFound" then
        some false
      else if status = some 403 then some false
      else none

/-- Embeds `parseS3Uri` of `utils/s3.ts`: strip the `s3://` scheme, split
at the first slash; a missing slash, an empty bucket or an empty key is
an invalid locator (`none` models the throw). -/
def parseS3Uri (uri : String) : Option (String × String) :=
  if strStartsWith uri "s3://" then
    let remainder := uri.data.drop 5
    match remainder.findIdx? (· = '/') with
    | none => none
    | some i =>
        if i = 0 || i = remainder.length - 1 then none
        else some (String.mk (remainder.take i), String.mk (remainder.drop (i + 1)))
  else none

/-- Worker of `dedupFirst`: keep an element iff it has not been seen. -/
def dedupFirstGo (seen : List String) : List String → List String
  | [] => []
  | x :: xs => if x ∈ seen then dedupFirstGo seen xs else x :: dedupFirstGo (x :: seen) xs

/-- First-occurrence deduplication, modelling
`Array.from(new Set(xs))` (a `Set` keeps insertion order). -/
def dedupFirst (l : List String) : List String := dedupFirstGo [] l

/-- Environment of one reduce-record execution: the outcome of every
external call the executor can make.  `head` is the HEAD outcome per
bucket/key, `fetchJson` the fetched-and-parsed chunk body (`none` for a
fetch or JSON error), `llmText` the generation outcome, `llmParsed` the
`JSON.parse` of the generator text, `persistOk` whether the storage
write succeeds, and `sendOk` whether a queue publish succeeds. -/
structure ReduceEnv where
  head : String → String → HeadOutcome
  fetchJson : String → String → Option JVal
  llmText : Option String
  llmParsed : String → Option JVal
  persistOk : Bool
  sendOk : Bool

/-- Existence check of one locator: parse it, then HEAD it (`none`
models a throw from either step). -/
def checkUri (env : ReduceEnv) (uri : String) : Option Bool :=
  (parseS3Uri uri).bind (fun bk => ensureObjectExists (env.head bk.1 bk.2))

/-- Embeds `findMissingObjects`: every locator is HEAD-checked and the
non-existing ones are collected; a throw from any check rejects the
whole batch (`Promise.all`), modelled by `none`.  The source issues the
checks concurrently, so only the membership of the returned list is
meaningful; the model fixes input order. -/
def findMissingObjects (env : ReduceEnv) : List String → Option (List String)
  | [] => some []
  | uri :: rest => do
      let ex ← checkUri env uri
      let ms ← findMissingObjects env rest
      if ex then pure ms else pure (uri :: ms)

/-- Embeds `loadChunkResults`: fetch and JSON-parse every chunk blob;
any failure rejects the batch (`none`). -/
def loadChunkResults (env : ReduceEnv) : List String → Option (List JVal)
  | [] => some []
  | uri :: rest => do
      let bk ← parseS3Uri uri
      let c ← env.fetchJson bk.1 bk.2
      let cs ← loadChunkResults env rest
      pure (c :: cs)

/-- Embeds `buildReducePrompt`: chunk `middleSummary` strings and
string-valued `participants` entries are collected and joined with the
caller prompt, meeting line, issue id and chunk-count line. -/
def buildReducePrompt (message : ReducePromptTaskMessage)
    (chunkResults : List JVal) : String :=
  let summaries := chunkResults.filterMap (fun r =>
    match jget r "middleSummary" with
    | some (JVal.jstr s) => some s
    | _ => none)
  let participants := chunkResults.flatMap (fun r =>
    match jget r "participants" with
    | some (JVal.jarr xs) => xs.toList.filterMap (fun p =>
        match p with
        | JVal.jstr s => some s
        | _ => none)
    | _ => [])
  let meetingInfo := "Meeting: " ++ message.meeting.nameOfMeeting ++ " (" ++
    message.meeting.nameOfHouse ++ ") on " ++ message.meeting.date
  let expectedChunks := message.chunk_result_urls.length
  let lines :=
    [message.prompt, "", meetingInfo,
     "Issue ID: " ++ message.issueID,
     "Chunks received: " ++ toString chunkResults.length ++ " / " ++
       toString expectedChunks,
     "", "Participants:"]
    ++ (if participants.length > 0 then participants else ["(none provided)"])
    ++ ["", "Chunk Summaries:"]
    ++ (if summaries.length > 0 then summaries else ["(none provided)"])
  String.intercalate "\n" lines

/-- The body of `processReduceRecord` up to (but excluding) the outer
`catch`: the emitted events paired with whether the body threw.  The
missing-prerequisite branch performs its requeue inside the `try`, so a
publish failure there propagates into the catch.  `deleteMessage` is
modelled as succeeding. -/
def reduceBody (env : ReduceEnv) (message : ReducePromptTaskMessage) :
    List SqsEvent × Bool :=
  let referencedUris := dedupFirst message.chunk_result_urls
  match findMissingObjects env referencedUris with
  | none => ([], true)
  | some missingSources =>
    if missingSources ≠ [] then
      requeueWithDelay env.sendOk (PromptTaskMessage.reduce message) message.retryMs_in
    else
      match loadChunkResults env referencedUris with
      | none => ([], true)
      | some chunkResults =>
        let combinedPrompt := buildReducePrompt message chunkResults
        match env.llmText with
        | none => ([SqsEvent.generate combinedPrompt], true)
        | some llmText =>
          let base := parseLLMJson (env.llmParsed llmText)
          let extras := chunkExtras chunkResults
          match buildArticle base extras message with
          | none => ([SqsEvent.generate combinedPrompt], true)
          | some article =>
            if env.persistOk then
              ([SqsEvent.generate combinedPrompt, SqsEvent.persist article,
                SqsEvent.ack], false)
            else
              ([SqsEvent.generate combinedPrompt, SqsEvent.persist article], true)

/-- Embeds `processReduceRecord`: run the body; any throw is caught and
answered with `requeueWithDelay` using the delay hint the message
carries (`message.retryMs_in`); a throw from that requeue itself
propagates out of the handler. -/
def processReduceRecord (env : ReduceEnv) (message : ReducePromptTaskMessage) :
    List SqsEvent × Bool :=
  let body := reduceBody env message
  if body.2 then
    let rq := requeueWithDelay env.sendOk (PromptTaskMessage.reduce message)
      message.retryMs_in
    (body.1 ++ rq.1, rq.2)
  else (body.1, false)

/-- Numeric value of a decimal digit character. -/
def digVal (c : Char) : Int := Int.ofNat (c.toNat - 48)

/-- Two decimal digits as a number. -/
def dig2 (a b : Char) : Int := 10 * digVal a + digVal b

/-- Leap-year test of the proleptic Gregorian calendar used by
JavaScript `Date`. -/
def isLeapYear (y : Int) : Bool :=
  (y % 4 = 0 && y % 100 ≠ 0) || y % 400 = 0

/-- Days in a month of the proleptic Gregorian calendar. -/
def daysInMonth (y m : Int) : Int :=
  if m = 2 then (if isLeapYear y then 29 else 28)
  else if m = 4 || m = 6 || m = 9 || m = 11 then 30
  else 31

/-- Days from the Unix epoch to the given civil date (standard
era/year-of-era computation). -/
def daysFromCivil (y m d : Int) : Int :=
  let y2 := if m ≤ 2 then y - 1 else y
  let era := Int.fdiv y2 400
  let yoe := y2 - era * 400
  let mp := Int.emod (m + 9) 12
  let doy := Int.fdiv (153 * mp + 2) 5 + d - 1
  let doe := yoe * 365 + Int.fdiv yoe 4 - Int.fdiv yoe 100 + doy
  era * 146097 + doe - 719468

/-- Civil date from days since the Unix epoch (inverse of
`daysFromCivil`). -/
def civilFromDays (z : Int) : Int × Int × Int :=
  let z2 := z + 719468
  let era := Int.fdiv z2 146097
  let doe := z2 - era * 146097
  let yoe := Int.fdiv (doe - Int.fdiv doe 1460 + Int.fdiv doe 36524 - Int.fdiv doe 146096) 365
  let y := yoe + era * 400
  let doy := doe - (365 * yoe + Int.fdiv yoe 4 - Int.fdiv yoe 100)
  let mp := Int.fdiv (5 * doy + 2) 153
  let d := doy - Int.fdiv (153 * mp + 2) 5 + 1
  let m := mp + (if mp < 10 then 3 else -9)
  (if m ≤ 2 then y + 1 else y, m, d)

/-- Timezone designator of an ES date-time string, as minutes east of
UTC.  An absent designator means local time; the runtime here (Lambda)
has `TZ=UTC`, so it reads as offset `0`. -/
def parseTzOffset : List Char → Option Int
  | [] => some 0
  | ['Z'] => some 0
  | sign :: rest =>
      if sign = '+' || sign = '-' then
        let core : List Char → Option Int := fun cs =>
          match cs with
          | [h1, h2, ':', m1, m2] =>
              if [h1, h2, m1, m2].all Char.isDigit &&
                 dig2 h1 h2 ≤ 23 && dig2 m1 m2 ≤ 59 then
                some (60 * dig2 h1 h2 + dig2 m1 m2)
              else none
          | [h1, h2, m1, m2] =>
              if [h1, h2, m1, m2].all Char.isDigit &&
                 dig2 h1 h2 ≤ 23 && dig2 m1 m2 ≤ 59 then
                some (60 * dig2 h1 h2 + dig2 m1 m2)
              else none
          | _ => none
        (core rest).map (fun o => if sign = '-' then -o else o)
      else none

/-- Fractional-second digits: at least one digit, of which the first
three (right-padded with zeros) are the milliseconds; the remainder of
the string is the timezone designator. -/
def parseFracMs (cs : List Char) : Option (Int × List Char) :=
  let ds := cs.takeWhile Char.isDigit
  let rest := cs.dropWhile Char.isDigit
  if ds.length = 0 then none
  else
    let d3 := (ds ++ ['0', '0', '0']).take 3
    match d3 with
    | [a, b, c] => some (100 * digVal a + 10 * digVal b + digVal c, rest)
    | _ => none

/-- Time-of-day (with optional seconds and fraction) and timezone of an
ES date-time string: returns milliseconds into the day and the plain
timezone offset in minutes. -/
def parseTimePart (cs : List Char) : Option (Int × Int) :=
  match cs with
  | h1 :: h2 :: ':' :: n1 :: n2 :: rest =>
      if ¬ [h1, h2, n1, n2].all Char.isDigit then none
      else
        let h := dig2 h1 h2
        let n := dig2 n1 n2
        let withSec : Option (Int × Int × List Char) :=
          match rest with
          | ':' :: s1 :: s2 :: rest2 =>
              if ¬ [s1, s2].all Char.isDigit then none
              else
                match rest2 with
                | '.' :: frest =>
                    (parseFracMs frest).map (fun p => (dig2 s1 s2, p.1, p.2))
                | _ => some (dig2 s1 s2, 0, rest2)
          | _ => some (0, 0, rest)
        match withSec with
        | none => none
        | some (s, ms, tzrest) =>
            if n ≤ 59 && s ≤ 59 &&
               (h ≤ 23 || (h = 24 && n = 0 && s = 0 && ms = 0)) then
              (parseTzOffset tzrest).map (fun off =>
                (h * 3600000 + n * 60000 + s * 1000 + ms, off))
            else none
  | _ => none

/-- ES date-time string parser (the format accepted by `new Date` for
the strings this code composes): `YYYY-MM-DD` optionally followed by
`T` and a time with optional seconds, fraction and timezone.  The
result is the epoch timestamp in milliseconds; `none` is an invalid
date. -/
def parseEsDateTime (cs : List Char) : Option Int :=
  match cs with
  | y1 :: y2 :: y3 :: y4 :: '-' :: m1 :: m2 :: '-' :: d1 :: d2 :: rest =>
      if ¬ [y1, y2, y3, y4, m1, m2, d1, d2].all Char.isDigit then none
      else
        let y := 1000 * digVal y1 + 100 * digVal y2 + 10 * digVal y3 + digVal y4
        let m := dig2 m1 m2
        let d := dig2 d1 d2
        if ¬ (1 ≤ m && m ≤ 12 && 1 ≤ d && d ≤ daysInMonth y m) then none
        else
          let dayMs := daysFromCivil y m d * 86400000
          match rest with
          | [] => some dayMs
          | 'T' :: trest =>
              (parseTimePart trest).map (fun p => dayMs + p.1 - p.2 * 60000)
          | _ => none
  | _ => none

/-- Left-pads a numeral with zeros to the given width. -/
def padNum (w : Nat) (n : Int) : String :=
  let s := toString n
  if s.length ≥ w then s else String.mk (List.replicate (w - s.length) '0') ++ s

/-- `Date.prototype.toISOString`: fixed-length UTC ISO-8601 rendering of
an epoch timestamp (years outside 0..9999 use the expanded form). -/
def formatIsoUtc (ms : Int) : String :=
  let days := Int.fdiv ms 86400000
  let rem := ms - days * 86400000
  let ymd := civilFromDays days
  let hh := Int.fdiv rem 3600000
  let mn := Int.fdiv (rem % 3600000) 60000
  let ss := Int.fdiv (rem % 60000) 1000
  let mmm := rem % 1000
  let yearStr :=
    if 0 ≤ ymd.1 && ymd.1 ≤ 9999 then padNum 4 ymd.1
    else if ymd.1 < 0 then "-" ++ padNum 6 (-ymd.1)
    else "+" ++ padNum 6 ymd.1
  yearStr ++ "-" ++ padNum 2 ymd.2.1 ++ "-" ++ padNum 2 ymd.2.2 ++ "T" ++
    padNum 2 hh ++ ":" ++ padNum 2 mn ++ ":" ++ padNum 2 ss ++ "." ++
    padNum 3 mmm ++ "Z"

/-- Test for the `^\d4-\d2-\d2T` shape (ISO-like with a time part). -/
def matchesIsoT (cs : List Char) : Bool :=
  match cs with
  | a :: b :: c :: d :: '-' :: e :: f :: '-' :: g :: h :: 'T' :: _ =>
      [a, b, c, d, e, f, g, h].all Char.isDigit
  | _ => false

/-- Test for the exact `^\d4-\d2-\d2$` shape (date only). -/
def matchesDateOnly (cs : List Char) : Bool :=
  match cs with
  | [a, b, c, d, '-', e, f, '-', g, h] =>
      [a, b, c, d, e, f, g, h].all Char.isDigit
  | _ => false

/-- Test for the `^\d4-\d2-\d2 \d2:\d2:\d2` shape (space-separated
fallback). -/
def matchesSpaceDateTime (cs : List Char) : Bool :=
  match cs with
  | a :: b :: c :: d :: '-' :: e :: f :: '-' :: g :: h :: ' ' ::
      i :: j :: ':' :: k :: l :: ':' :: m :: n :: _ =>
      [a, b, c, d, e, f, g, h, i, j, k, l, m, n].all Char.isDigit
  | _ => false

/-- First-occurrence character replacement (JavaScript
`String.prototype.replace` with a string pattern). -/
def replaceFirstChar (a b : Char) : List Char → List Char
  | [] => []
  | c :: cs => if c = a then b :: cs else c :: replaceFirstChar a b cs

/-- Embeds `toIsoUtc` of `dynamoDB/storeData.ts`, restricted to string
inputs (the typed `Article.date` is a string; the `Date`-object and
epoch-number branches of the source are unreachable from it).  `none`
covers both the `undefined` result for a blank input and the thrown
`Invalid ...` errors; the final fallback branch hands an arbitrary
string to the implementation-defined `new Date(string)` parser and is
modelled as unparseable. -/
def toIsoUtc (dateLike : String) : Option String :=
  let trimmed := jsTrim dateLike
  if trimmed = "" then none
  else if matchesIsoT trimmed.data then
    (parseEsDateTime trimmed.data).map formatIsoUtc
  else if matchesDateOnly trimmed.data then
    (parseEsDateTime (trimmed.data ++ "T00:00:00Z".data)).map formatIsoUtc
  else if matchesSpaceDateTime trimmed.data then
    (parseEsDateTime (replaceFirstChar ' ' 'T' trimmed.data ++ ['Z'])).map formatIsoUtc
  else none

/-- Embeds `monthFromIsoUsingJST` (defined in the source but not used by
`storeData`, whose default stays UTC-aligned): shift the instant by
nine hours and read off year and month. -/
def monthFromIsoUsingJST (isoUtc : String) : Option String :=
  (parseEsDateTime isoUtc.data).map (fun ms =>
    let jst := ms + 9 * 60 * 60 * 1000
    let ymd := civilFromDays (Int.fdiv jst 86400000)
    padNum 4 ymd.1 ++ "-" ++ padNum 2 ymd.2.1)

/-- Embeds `ensureYYYYMM`: the month string must match `^\d4-\d2$`,
otherwise the writer throws (`none`). -/
def ensureYYYYMM (v : String) : Option String :=
  match v.data with
  | [a, b, c, d, '-', e, f] =>
      if [a, b, c, d, e, f].all Char.isDigit then some v else none
  | _ => none

/-- Embeds `yOf`. -/
def yOf (monthYYYYMM : String) : String := monthYYYYMM.take 4

/-- Embeds `mOf`. -/
def mOf (monthYYYYMM : String) : String := (monthYYYYMM.drop 5).take 2

/-- Embeds the key helpers `artPK`/`artSK`. -/
def artPK (id : String) : String := "A#" ++ id

/-- The fixed sort key of a primary article row. -/
def artSK : String := "META"

/-- Embeds `catKey`. -/
def catKey (c : String) : String := "CATEGORY#" ++ c

/-- Embeds `personKey`. -/
def personKey (p : String) : String := "PERSON#" ++ p

/-- Embeds `kwKey`. -/
def kwKey (k : String) : String := "KEYWORD#" ++ k

/-- Embeds `kindKey`. -/
def kindKey (k : String) : String := "IMAGEKIND#" ++ k

/-- JavaScript `String(number)` on the values this code can print: an
integral number prints as its integer numeral; a non-integral one as an
exact decimal expansion when one of bounded length exists (every
binary double has one).  Values admitting no such expansion cannot
arise from a double and print in the fraction notation as a fallback. -/
def jsNumToString (q : Rat) : String :=
  if q.den = 1 then toString q.num
  else
    match (List.range 40).find? (fun k => (q.den : Int) ∣ (10 : Int) ^ (k + 1)) with
    | some k =>
        let scaled := q.num * ((10 : Int) ^ (k + 1) / (q.den : Int))
        let mag := scaled.natAbs
        let frac := padNum (k + 1) (Int.ofNat (mag % 10 ^ (k + 1)))
        (if q.num < 0 then "-" else "") ++ toString (mag / 10 ^ (k + 1)) ++ "." ++ frac
    | none => toString q.num ++ "/" ++ toString q.den

/-- JavaScript `String.prototype.padStart(4, "0")`. -/
def padStart4 (s : String) : String :=
  if s.length ≥ 4 then s else String.mk (List.replicate (4 - s.length) '0') ++ s

/-- Embeds `sessionKey`. -/
def sessionKey (s : Rat) : String := "SESSION#" ++ padStart4 (jsNumToString s)

/-- Embeds `houseKey`. -/
def houseKey (h : String) : String := "HOUSE#" ++ h

/-- Embeds `meetingKey`. -/
def meetingKey (m : String) : String := "MEETING#" ++ m

/-- Embeds `idxSK`: the thin-index sort key
`Y#YYYY#M#MM#D#iso#A#id`. -/
def idxSK (monthYYYYMM isoDate id : String) : String :=
  "Y#" ++ yOf monthYYYYMM ++ "#M#" ++ mOf monthYYYYMM ++ "#D#" ++ isoDate ++
    "#A#" ++ id

/-- Participant entry as consumed by the storage writer (`name` may be
absent). -/
structure Participant where
  name : Option String
deriving DecidableEq

/-- Keyword entry as consumed by the storage writer. -/
structure Keyword where
  keyword : Option String
deriving DecidableEq

/-- The persisted record type (`dynamoDB/article.d.ts`) as the storage
writer consumes it.  `month` is optional because `storeData` defends
the field with `?? iso.slice(0, 7)` and the month invariant hinges on
that branch; the heavy summary fields play no role in any row key and
are carried opaquely. -/
structure Article where
  id : String
  title : String
  date : String
  month : Option String
  imageKind : String
  session : Rat
  nameOfHouse : String
  nameOfMeeting : String
  categories : List String
  description : String
  summary : JVal
  soft_summary : JVal
  middle_summary : List JVal
  dialogs : List JVal
  participants : List Participant
  keywords : List Keyword
  terms : List JVal
deriving DecidableEq

/-- The primary (`META`) row written for an article, with the enforced
date and month and the four global-listing key attributes; the article
itself stands for the spread of its remaining fields. -/
structure MainItem where
  PK : String
  SK : String
  date : String
  month : String
  typeName : String
  GSI1PK : String
  GSI1SK : String
  GSI2PK : String
  GSI2SK : String
  article : Article
deriving DecidableEq

/-- One thin index row.  Beyond the key pair and its `kind` marker the
source copies a fixed list-view projection (`thinBase`) into every such
row; of it only the enforced `date`/`month` pair is retained here, the
remaining projection fields being irrelevant to every claim. -/
structure IdxItem where
  PK : String
  SK : String
  kind : String
  date : String
  month : String
deriving DecidableEq

/-- The pure fan-out of `storeData`: the primary row and the thin index
rows it submits, or `none` when date normalization or the month format
check throws.  Row order follows the source: categories, participants,
keywords (each immediately followed by its recent-occurrence row), the
unconditional image-kind and session rows, then house and meeting rows
when their trimmed values are non-empty. -/
def storeDataItems (article : Article) : Option (MainItem × List IdxItem) := do
  let iso ← toIsoUtc article.date
  let monthNorm ← ensureYYYYMM (article.month.getD (iso.take 7))
  let gsi2pk := "Y#" ++ yOf monthNorm ++ "#M#" ++ mOf monthNorm
  let mainItem : MainItem :=
    { PK := artPK article.id
      SK := artSK
      date := iso
      month := monthNorm
      typeName := "ARTICLE"
      GSI1PK := "ARTICLE"
      GSI1SK := iso
      GSI2PK := gsi2pk
      GSI2SK := iso
      article := article }
  let sk := idxSK monthNorm iso article.id
  let thinRow : String → String → IdxItem := fun pk kd =>
    { PK := pk, SK := sk, kind := kd, date := iso, month := monthNorm }
  let catRows := article.categories.filterMap (fun c =>
    let cat := jsTrim c
    if cat = "" then none else some (thinRow (catKey cat) "CATEGORY_INDEX"))
  let personRows := article.participants.filterMap (fun p =>
    let nm := jsTrim (p.name.getD "")
    if nm = "" then none else some (thinRow (personKey nm) "PERSON_INDEX"))
  let kwRows := article.keywords.flatMap (fun k =>
    let kw := jsTrim (k.keyword.getD "")
    if kw = "" then []
    else
      [thinRow (kwKey kw) "KEYWORD_INDEX",
       { PK := "KEYWORD_RECENT"
         SK := "D#" ++ iso ++ "#KW#" ++ kw ++ "#A#" ++ article.id
         kind := "KEYWORD_OCCURRENCE"
         date := iso
         month := monthNorm }])
  let kindRow := thinRow (kindKey article.imageKind) "IMAGEKIND_INDEX"
  let sessionRow := thinRow (sessionKey article.session) "SESSION_INDEX"
  let houseRows :=
    if jsTrim article.nameOfHouse ≠ "" then
      [thinRow (houseKey (jsTrim article.nameOfHouse)) "HOUSE_INDEX"]
    else []
  let meetingRows :=
    if jsTrim article.nameOfMeeting ≠ "" then
      [thinRow (meetingKey (jsTrim article.nameOfMeeting)) "MEETING_INDEX"]
    else []
  some (mainItem,
    catRows ++ personRows ++ kwRows ++ [kindRow, sessionRow] ++ houseRows ++
      meetingRows)

/-- Write operations observable on the record store. -/
inductive DdbEvent : Type
  | putMain (item : MainItem) : DdbEvent
  | batchWrite (items : List IdxItem) : DdbEvent
deriving DecidableEq

/-- Marks the batch (thin-index) write events. -/
def DdbEvent.isBatch : DdbEvent → Bool
  | DdbEvent.batchWrite _ => true
  | _ => false

/-- Environment of one storage-writer call: whether the primary put
succeeds, and per batch call (numbered from zero) the subset the table
reports as unprocessed.  `fuel` bounds the unbounded retry loop of the
source for the model; running out of fuel stands for the loop not
having terminated yet. -/
structure DdbEnv where
  putOk : Bool
  unprocessed : Nat → List IdxItem → List IdxItem
  fuel : Nat

/-- Embeds `batchPutAll`: submit windows of 25, re-inserting the
reported unprocessed subset at the window start (`splice(i, 0, ...)`)
and repeating the window until it is accepted, else advancing by 25.
Returns the batch events in order and whether the loop finished. -/
def batchPutAll (env : DdbEnv) :
    Nat → Nat → Nat → List IdxItem → List DdbEvent × Bool
  | 0, _, _, _ => ([], false)
  | fuel + 1, callIdx, i, items =>
      if i < items.length then
        let slice := (items.drop i).take 25
        let unp := env.unprocessed callIdx slice
        if unp.isEmpty then
          let next := batchPutAll env fuel (callIdx + 1) (i + 25) items
          (DdbEvent.batchWrite slice :: next.1, next.2)
        else
          let items2 := items.take i ++ unp ++ items.drop i
          let next := batchPutAll env fuel (callIdx + 1) i items2
          (DdbEvent.batchWrite slice :: next.1, next.2)
      else ([], true)

/-- Embeds `storeData` as an event trace: normalize and build all rows
(a normalization failure throws before any write); put the primary row
(a failed put throws with no further writes); only then submit the thin
index rows (skipped entirely when there are none).  The second
component records whether the call threw. -/
def storeData (env : DdbEnv) (article : Article) : List DdbEvent × Bool :=
  match storeDataItems article with
  | none => ([], true)
  | some (mainItem, idxItems) =>
      if env.putOk then
        let batchEvs :=
          if idxItems.isEmpty then [] else (batchPutAll env env.fuel 0 0 idxItems).1
        (DdbEvent.putMain mainItem :: batchEvs, false)
      else ([], true)

/-- Spec-side definition (following the words of the specification, for
comparison with the source merge): deduplication by full-value
equality, first occurrence winning. -/
def dedupeByValue (l : List JVal) : List JVal := dedupeGo (fun x => x) [] l

/-- Spec-side definition: the same-named arrays of all Chunk Results,
flattened in order (the claim describes the merged field as the base
array followed by this flattening, deduplicated). -/
def flatField (chunks : List JVal) (field : String) : List JVal :=
  chunks.flatMap (fun c =>
    match jget c field with
    | some (JVal.jarr xs) => xs.toList
    | _ => [])

/-- A value is JSON-pure when `JSON.stringify` keeps it fixed under
canonicalization, i.e. it contains no non-finite number.  Every value
produced by `JSON.parse` is JSON-pure. -/
def IsJsonPure (v : JVal) : Prop := canon v = v

instance (v : JVal) : Decidable (IsJsonPure v) := by
  unfold IsJsonPure; infer_instance

/-- Sample meeting used by the concrete witnesses. -/
def sampleMeeting : Meeting :=
  { issueID := "M1", nameOfMeeting := "mm", nameOfHouse := "hh",
    date := "2024-01-15", numberOfSpeeches := 3 }

/-- Sample reduce task message used by the concrete witnesses. -/
def sampleReduceMsg : ReducePromptTaskMessage :=
  { chunk_result_urls := ["s3://b/k1", "s3://b/k2"], meta := none,
    prompt := "p", issueID := "M1", meeting := sampleMeeting,
    llm := "gemini", llmModel := "g", retryAttempts := 2, retryMs_in := 120 }

/-- Environment in which the blob `k2` does not exist (HEAD yields 404)
while everything else succeeds. -/
def headMissingEnv : ReduceEnv :=
  { head := fun _ k =>
      if k = "k2" then HeadOutcome.errored (some 404) none none else HeadOutcome.ok,
    fetchJson := fun _ _ => some (JVal.obj []),
    llmText := some "x", llmParsed := fun _ => none,
    persistOk := true, sendOk := true }

/-- Environment in which the blob `k1` exists but HEAD is answered with
403, while everything else succeeds. -/
def headForbiddenEnv : ReduceEnv :=
  { headMissingEnv with
    head := fun _ k =>
      if k = "k1" then HeadOutcome.errored (some 403) none none else HeadOutcome.ok }

/-- Environment in which every external call succeeds and the generator
output parses to an object carrying its own `id`, `date` and
`nameOfHouse`. -/
def happyEnv : ReduceEnv :=
  { headMissingEnv with
    head := fun _ _ => HeadOutcome.ok,
    llmParsed := fun _ => some (JVal.obj
      [("id", JVal.jstr "zzz"), ("date", JVal.jstr "1970-01-01"),
       ("nameOfHouse", JVal.jstr "X")]) }

/-- Sample record with two categories, two named participants, one
keyword, a house and a meeting name (the fan-out example of the
specification). -/
def sampleFanoutArticle : Article :=
  { id := "a1", title := "t", date := "2024-01-15", month := none,
    imageKind := "会議録", session := 1, nameOfHouse := "h", nameOfMeeting := "m",
    categories := ["c1", "c2"], description := "",
    summary := JVal.jnull, soft_summary := JVal.jnull, middle_summary := [],
    dialogs := [], participants := [{ name := some "p1" }, { name := some "p2" }],
    keywords := [{ keyword := some "k1" }], terms := [] }

/-- Sample record whose caller-supplied `month` contradicts its `date`. -/
def monthMismatchArticle : Article :=
  { sampleFanoutArticle with month := some "1999-12" }

/-- A syntactically well-formed map payload whose attempt counter is
negative. -/
def negAttemptBody : JVal :=
  JVal.obj [("type", JVal.jstr "map"), ("url", JVal.jstr "s3://b/k"),
    ("result_url", JVal.jstr "s3://b/r"), ("llm", JVal.jstr "gemini"),
    ("llmModel", JVal.jstr "g-pro"), ("retryAttempts", JVal.jnum true (-1)),
    ("retryMs_in", JVal.jnum true 5)]

/-- The typed message the codec produces for `negAttemptBody`. -/
def negAttemptParsed : MapPromptTaskMessage :=
  { url := "s3://b/k", result_url := "s3://b/r", meta := none,
    llm := "gemini", llmModel := "g-pro", retryAttempts := 0, retryMs_in := 5 }

/-- Sample parsed generator output carrying its own scalar values. -/
def mergeBase : JVal :=
  JVal.obj [("dialogs", JVal.arr [JVal.jstr "d2", JVal.jstr "d0"]),
    ("id", JVal.jstr "zzz"), ("nameOfHouse", JVal.jstr "X")]

/-- Sample chunk results with overlapping `dialogs` arrays. -/
def mergeChunks : List JVal :=
  [JVal.obj [("dialogs", JVal.arr [JVal.jstr "d1", JVal.jstr "d1"]),
     ("terms", JVal.arr [JVal.jstr "t1"])],
   JVal.obj [("dialogs", JVal.arr [JVal.jstr "d2", JVal.jstr "d1"])]]

/-- The sample record with all zero-valued facets emptied. -/
def emptyFacetArticle : Article :=
  { sampleFanoutArticle with
    categories := [], participants := [], keywords := [],
    nameOfHouse := "", nameOfMeeting := "" }

/-- Sample table-store environment: the primary put succeeds and no
batch item is ever reported unprocessed. -/
def ddbSampleEnv : DdbEnv :=
  { putOk := true, unprocessed := fun _ _ => [], fuel := 4 }

/-- The article the merge step assembles from the sample generator
output and chunk results. -/
def mergeArticle : ArticleJ :=
  (buildArticle mergeBase (chunkExtras mergeChunks) sampleReduceMsg).getD
    { id := "", title := JVal.jnull, date := "", month := JVal.jnull,
      imageKind := none, session := none, nameOfHouse := "", nameOfMeeting := "",
      categories := JVal.jnull, description := JVal.jnull, summary := none,
      soft_summary := none, middle_summary := JVal.jnull, dialogs := [],
      participants := [], keywords := [], terms := [] }

/-- The article the sample happy-path run assembles and persists. -/
def happyArticle : ArticleJ :=
  (buildArticle (parseLLMJson (happyEnv.llmParsed "x"))
      (chunkExtras [JVal.obj [], JVal.obj []]) sampleReduceMsg).getD
    { id := "", title := JVal.jnull, date := "", month := JVal.jnull,
      imageKind := none, session := none, nameOfHouse := "", nameOfMeeting := "",
      categories := JVal.jnull, description := JVal.jnull, summary := none,
      soft_summary := none, middle_summary := JVal.jnull, dialogs := [],
      participants := [], keywords := [], terms := [] }

theorem JArr.toList_ofList_arr (l : List JVal) : (JArr.ofList l).toList = l := by
  induction l with
  | nil => rfl
  | cons x xs ih => simp [JArr.ofList, JArr.toList, ih]

theorem JObj.toList_ofList_obj (l : List (String × JVal)) : (JObj.ofList l).toList = l := by
  induction l with
  | nil => rfl
  | cons x xs ih => cases x; simp [JObj.ofList, JObj.toList, ih]

theorem findMissingObjects_mem (env : ReduceEnv) :
    ∀ (l ms : List String), findMissingObjects env l = some ms →
      ∀ u, u ∈ l → checkUri env u = some false → u ∈ ms := by
  intro l
  induction l with
  | nil => intro ms _ u hu; exact absurd hu (List.not_mem_nil u)
  | cons x xs ih =>
      intro ms h u hu hc
      rw [findMissingObjects] at h
      cases hx : checkUri env x with
      | none => rw [hx] at h; simp at h
      | some ex =>
          rw [hx] at h
          cases hrest : findMissingObjects env xs with
          | none => rw [hrest] at h; simp at h
          | some rest =>
              rw [hrest] at h
              simp only [Option.bind_eq_bind, Option.some_bind] at h
              rcases List.mem_cons.mp hu with rfl | hmem
              · rw [hx] at hc
                have hex : ex = false := by
                  exact Option.some.inj hc
                subst hex
                simp only [Bool.false_eq_true, if_false, pure] at h
                have : ms = u :: rest := by
                  cases h; rfl
                rw [this]; exact List.mem_cons_self u rest
              · have hmem2 := ih rest hrest u hmem hc
                cases ex with
                | true =>
                    simp only [if_true, pure] at h
                    have : ms = rest := by cases h; rfl
                    rw [this]; exact hmem2
                | false =>
                    simp only [Bool.false_eq_true, if_false, pure] at h
                    have : ms = x :: rest := by cases h; rfl
                    rw [this]; exact List.mem_cons_of_mem x hmem2

theorem reduce_missing_requeue (env : ReduceEnv) (message : ReducePromptTaskMessage)
    (hsend : env.sendOk = true)
    (hmiss : ∃ u ∈ dedupFirst message.chunk_result_urls, checkUri env u = some false) :
    processReduceRecord env message =
      ([SqsEvent.send (bumpRetryAttempts (PromptTaskMessage.reduce message))
          (safeDelaySeconds message.retryMs_in), SqsEvent.ack], false) := by
  obtain ⟨u, hu, hc⟩ := hmiss
  cases hfm : findMissingObjects env (dedupFirst message.chunk_result_urls) with
  | none =>
      simp [processReduceRecord, reduceBody, hfm, requeueWithDelay, hsend]
  | some ms =>
      have hne : ms ≠ [] := by
        have hm := findMissingObjects_mem env _ ms hfm u hu hc
        intro h; rw [h] at hm; exact absurd hm (List.not_mem_nil u)
      simp [processReduceRecord, reduceBody, hfm, hne, requeueWithDelay, hsend]

/-- C1: for every reduce task message whose deduplicated
`chunk_result_urls` contain at least one locator whose blob-store
existence check returns `false`, `processReduceRecord` (with the queue
publish succeeding) makes zero generation calls, schedules exactly one
requeue of the task using the delay hint the message itself carries
(`retryMs_in`), and returns without persisting any record: its whole
effect trace is the single publish of the attempt-incremented copy
delayed by the clamped hint, followed by the acknowledgement of the
original. -/
theorem c1_missing_dependency_single_requeue (env : ReduceEnv)
    (message : ReducePromptTaskMessage) (hsend : env.sendOk = true)
    (hmiss : ∃ u ∈ dedupFirst message.chunk_result_urls, checkUri env u = some false) :
    processReduceRecord env message =
      ([SqsEvent.send (bumpRetryAttempts (PromptTaskMessage.reduce message))
          (safeDelaySeconds message.retryMs_in), SqsEvent.ack], false) :=
  reduce_missing_requeue env message hsend hmiss

/-- Witness for C1 at a concrete environment in which the second chunk
blob is absent. -/
theorem c1_missing_dependency_single_requeue_witness :
    processReduceRecord headMissingEnv sampleReduceMsg =
      ([SqsEvent.send (bumpRetryAttempts (PromptTaskMessage.reduce sampleReduceMsg)) 120,
        SqsEvent.ack], false) := by
  have h := c1_missing_dependency_single_requeue headMissingEnv sampleReduceMsg
    (by rfl) (by decide)
  have hd : safeDelaySeconds (sampleReduceMsg.retryMs_in) = 120 := by decide
  rw [hd] at h
  exact h

/-- C2 counterexample: at the fractional requested delay `3/2` the
published copy carries delay `1`, while the claim as stated requires the
delay to equal `3/2` clamped into `[0, 900]`, which is `3/2` itself. -/
theorem c2_counterexample :
    requeueWithDelay true (PromptTaskMessage.reduce sampleReduceMsg) (mkRat 3 2) =
      ([SqsEvent.send (bumpRetryAttempts (PromptTaskMessage.reduce sampleReduceMsg)) 1,
        SqsEvent.ack], false) ∧
    min (max 0 (mkRat 3 2)) 900 ≠ ((1 : Int) : Rat) := by
  constructor
  · decide
  · decide

/-- C2 (amended): `requeueWithDelay` publishes the attempt-incremented
copy with a delay equal to the floor of the requested delay clamped
into `[0, 900]`, and acknowledges the original only after the publish
(the acknowledgement event follows the send event); if the publish
throws, the original is never acknowledged, its invisibility window is
instead extended to that same clamped delay (or the five-minute default
when the clamp is zero), and the error propagates. -/
theorem c2_requeue_floor_clamp_protocol (message : PromptTaskMessage) (d : Rat) :
    requeueWithDelay true message d =
      ([SqsEvent.send (bumpRetryAttempts message) (safeDelaySeconds d), SqsEvent.ack],
        false) ∧
    requeueWithDelay false message d =
      ([SqsEvent.visibility
          (if safeDelaySeconds d = 0 then FIVE_MINUTES_SECONDS else safeDelaySeconds d)],
        true) ∧
    safeDelaySeconds d = min 900 (max 0 ⌊d⌋) := by
  refine ⟨rfl, rfl, rfl⟩

theorem find?_keys_map (l : List (String × JVal)) (key f : String) (val : JVal) :
    (l.map (fun p => if p.1 = key then (p.1, val) else p)).find? (fun p => p.1 = f) =
      (l.find? (fun p => p.1 = f)).map (fun p => if p.1 = key then (p.1, val) else p) := by
  induction l with
  | nil => rfl
  | cons hd tl ih =>
      have hfst : ((if hd.1 = key then (hd.1, val) else hd).1) = hd.1 := by
        by_cases hk : hd.1 = key <;> simp [hk]
      by_cases hf : hd.1 = f
      · rw [List.map_cons, List.find?_cons_of_pos _ (by simp only [hfst]; simp [hf]),
          List.find?_cons_of_pos _ (by simp [hf])]
        rfl
      · rw [List.map_cons, List.find?_cons_of_neg _ (by simp only [hfst]; simp [hf]),
          List.find?_cons_of_neg _ (by simp [hf]), ih]

theorem jget_setField_ne (v : JVal) (key f : String) (val : JVal) (hne : f ≠ key) :
    jget (setField v key val) f = jget v f := by
  cases v with
  | jobj fs =>
      by_cases hany : fs.toList.any (fun p => p.1 = key)
      · simp only [setField, jget, JVal.obj, JObj.toList_ofList_obj, hany, if_true]
        rw [find?_keys_map fs.toList key f val]
        cases hfind : fs.toList.find? (fun p => p.1 = f) with
        | none => rfl
        | some p =>
            have hp : p.1 = f := by
              have := List.find?_some hfind
              simpa using this
            have hpk : ¬ p.1 = key := by rw [hp]; exact hne
            simp [hpk]
      · simp only [setField, jget, JVal.obj, JObj.toList_ofList_obj, hany,
          Bool.false_eq_true, if_false]
        rw [List.find?_append]
        have hlast : List.find? (fun p => p.1 = f) [(key, val)] = none := by
          simp only [List.find?]
          rw [decide_eq_false (fun h => hne h.symm)]
        rw [hlast, Option.or_none]
  | jarr a =>
      simp only [setField, jget, JVal.obj, JObj.toList_ofList_obj]
      have hlast : List.find? (fun p => p.1 = f) [(key, val)] = none := by
        simp only [List.find?]
        rw [decide_eq_false (fun h => hne h.symm)]
      rw [hlast]; rfl
  | jnull => rfl
  | jbool b => rfl
  | jnum fin q => rfl
  | jstr s => rfl

theorem jget_setField_self (v : JVal) (key : String) (val : JVal)
    (hrec : isRecord v = true) :
    jget (setField v key val) key = some val := by
  cases v with
  | jobj fs =>
      by_cases hany : fs.toList.any (fun p => p.1 = key)
      · simp only [setField, jget, JVal.obj, JObj.toList_ofList_obj, hany, if_true]
        rw [find?_keys_map fs.toList key key val]
        have hsome : (fs.toList.find? (fun p => p.1 = key)).isSome := by
          rw [List.find?_isSome]
          obtain ⟨p, hmem, hp⟩ := List.any_eq_true.mp hany
          exact ⟨p, hmem, hp⟩
        obtain ⟨p, hfind⟩ := Option.isSome_iff_exists.mp hsome
        have hp : p.1 = key := by
          have := List.find?_some hfind
          simpa using this
        simp [hfind, hp]
      · simp only [setField, jget, JVal.obj, JObj.toList_ofList_obj, hany,
          Bool.false_eq_true, if_false]
        rw [List.find?_append]
        have hnone : fs.toList.find? (fun p => p.1 = key) = none := by
          rw [List.find?_eq_none]
          intro p hmem hp
          exact hany (List.any_eq_true.mpr ⟨p, hmem, hp⟩)
        rw [hnone, Option.none_or]
        simp [List.find?]
  | jarr a =>
      simp [setField, jget, JVal.obj, JObj.toList_ofList_obj, List.find?]
  | jnull => simp [isRecord] at hrec
  | jbool b => simp [isRecord] at hrec
  | jnum fin q => simp [isRecord] at hrec
  | jstr s => simp [isRecord] at hrec

theorem isRecord_setField (v : JVal) (key : String) (val : JVal)
    (hrec : isRecord v = true) : isRecord (setField v key val) = true := by
  cases v with
  | jobj fs =>
      by_cases hany : fs.toList.any (fun p => p.1 = key) <;>
        simp [setField, hany, JVal.obj, isRecord]
  | jarr a => simp [setField, JVal.obj, isRecord]
  | jnull => simp [isRecord] at hrec
  | jbool b => simp [isRecord] at hrec
  | jnum fin q => simp [isRecord] at hrec
  | jstr s => simp [isRecord] at hrec

theorem isMapPromptTaskMessage_false_of_none (n : JVal) (f : String)
    (hf : f ∈ (["url", "result_url", "llm", "llmModel", "retryMs_in"] : List String))
    (hnone : jget n f = none) : isMapPromptTaskMessage n = false := by
  fin_cases hf <;> simp_all [isMapPromptTaskMessage, isFiniteNumField]

theorem isReducePromptTaskMessage_false_of_none (n : JVal) (f : String)
    (hf : f ∈ (["prompt", "issueID", "meeting", "llm", "llmModel", "retryMs_in"] :
      List String))
    (hnone : jget n f = none) : isReducePromptTaskMessage n = false := by
  fin_cases hf <;> simp_all [isReducePromptTaskMessage, isMeetingVal, isFiniteNumField]

theorem isReducePromptTaskMessage_false_of_empty_urls (n : JVal)
    (h : jget n "chunk_result_urls" = some (JVal.arr [])) :
    isReducePromptTaskMessage n = false := by
  simp [isReducePromptTaskMessage, h, JVal.arr, JArr.ofList, JArr.toList]

/-- C3 counterexample: a syntactically well-formed map payload with a
negative attempt counter is not rejected by the codec; the counter is
normalized to `0`, the message parses, and the handler dispatches it to
an executor. -/
theorem c3_counterexample :
    parsePromptTaskMessage negAttemptBody = some (PromptTaskMessage.map negAttemptParsed) ∧
    handleRecordAction negAttemptBody =
      HandlerAction.dispatch (PromptTaskMessage.map negAttemptParsed) := by
  constructor <;> decide

/-- C3 (amended): a payload with an unrecognized (or missing)
discriminant, and a map/reduce payload missing one of its required
fields other than the attempt counter, fail the codec
(`InvalidMessage`), and the caller then acknowledges (drops) the record
rather than requeueing it; such payloads never reach an executor.  A
missing or negative `retryAttempts`, however, is normalized to `0`
rather than rejected (see the counterexample). -/
theorem c3_codec_rejects_wrong_discriminant_or_missing_field :
    (∀ v : JVal, jget v "type" ≠ some (JVal.jstr "map") →
      jget v "type" ≠ some (JVal.jstr "reduce") →
      parsePromptTaskMessage v = none ∧
        handleRecordAction v = HandlerAction.dropDelete) ∧
    (∀ v : JVal,
      ∀ f ∈ (["url", "result_url", "llm", "llmModel", "retryMs_in"] : List String),
      jget v "type" = some (JVal.jstr "map") → jget v f = none →
      parsePromptTaskMessage v = none ∧
        handleRecordAction v = HandlerAction.dropDelete) ∧
    (∀ v : JVal,
      ∀ f ∈ (["chunk_result_urls", "prompt", "issueID", "meeting", "llm",
        "llmModel", "retryMs_in"] : List String),
      jget v "type" = some (JVal.jstr "reduce") → jget v f = none →
      parsePromptTaskMessage v = none ∧
        handleRecordAction v = HandlerAction.dropDelete) := by
  refine ⟨?_, ?_, ?_⟩
  · intro v h1 h2
    have hparse : parsePromptTaskMessage v = none := by
      rw [parsePromptTaskMessage, if_neg h1, if_neg h2]
    exact ⟨hparse, by simp [handleRecordAction, hparse]⟩
  · intro v f hf htype hnone
    have hparse : parsePromptTaskMessage v = none := by
      rw [parsePromptTaskMessage, if_pos htype]
      suffices h : parseMapPromptTaskMessage v = none by rw [h]; rfl
      rw [parseMapPromptTaskMessage]
      cases hrec : isRecord v with
      | false => simp [hrec]
      | true =>
          have hne : f ≠ "retryAttempts" := by
            rintro rfl; simp at hf
          have hvn : jget (setField v "retryAttempts"
              (JVal.jnum true (normalizeRetryAttempts (jget v "retryAttempts") : Rat)))
              f = none := by
            rw [jget_setField_ne _ _ _ _ hne]; exact hnone
          have hval := isMapPromptTaskMessage_false_of_none _ f hf hvn
          simp [hrec, htype, hval]
    exact ⟨hparse, by simp [handleRecordAction, hparse]⟩
  · intro v f hf htype hnone
    have hparse : parsePromptTaskMessage v = none := by
      have hmapne : jget v "type" ≠ some (JVal.jstr "map") := by
        rw [htype]; simp
      rw [parsePromptTaskMessage, if_neg hmapne, if_pos htype]
      suffices h : parseReducePromptTaskMessage v = none by rw [h]; rfl
      rw [parseReducePromptTaskMessage]
      cases hrec : isRecord v with
      | false => simp [hrec]
      | true =>
          rcases List.mem_cons.mp hf with rfl | hf2
          · -- the urls field: it is rewritten to the empty array and rejected
            have hcurls : (match jget v "chunk_result_urls" with
                | some (JVal.jarr xs) => JVal.arr (xs.toList.filter isStr)
                | _ => JVal.arr []) = JVal.arr [] := by
              rw [hnone]
            have hself : jget (setField
                (setField v "retryAttempts"
                  (JVal.jnum true (normalizeRetryAttempts (jget v "retryAttempts") : Rat)))
                "chunk_result_urls" (JVal.arr []))
                "chunk_result_urls" = some (JVal.arr []) :=
              jget_setField_self _ _ _ (isRecord_setField _ _ _ hrec)
            have hval := isReducePromptTaskMessage_false_of_empty_urls _ hself
            simp [hrec, htype, hcurls, hval]
          · have hne1 : f ≠ "chunk_result_urls" := by
              rintro rfl; simp at hf2
            have hne2 : f ≠ "retryAttempts" := by
              rintro rfl; simp at hf2
            have hvn : ∀ curls rnum, jget (setField
                (setField v "retryAttempts" rnum) "chunk_result_urls" curls) f = none := by
              intro curls rnum
              rw [jget_setField_ne _ _ _ _ hne1, jget_setField_ne _ _ _ _ hne2]
              exact hnone
            have hval := isReducePromptTaskMessage_false_of_none _ f hf2
              (hvn (match jget v "chunk_result_urls" with
                    | some (JVal.jarr xs) => JVal.arr (xs.toList.filter isStr)
                    | _ => JVal.arr [])
                   (JVal.jnum true (normalizeRetryAttempts (jget v "retryAttempts") : Rat)))
            simp [hrec, htype, hval]
    exact ⟨hparse, by simp [handleRecordAction, hparse]⟩

/-- Witness for C3 at concrete malformed payloads: an unknown
discriminant, a map payload missing `url`, and a reduce payload missing
`prompt` are all dropped. -/
theorem c3_codec_rejects_wrong_discriminant_or_missing_field_witness :
    (parsePromptTaskMessage (JVal.obj [("type", JVal.jstr "other")]) = none ∧
      handleRecordAction (JVal.obj [("type", JVal.jstr "other")]) =
        HandlerAction.dropDelete) ∧
    (parsePromptTaskMessage (JVal.obj [("type", JVal.jstr "map")]) = none ∧
      handleRecordAction (JVal.obj [("type", JVal.jstr "map")]) =
        HandlerAction.dropDelete) ∧
    (parsePromptTaskMessage (JVal.obj [("type", JVal.jstr "reduce")]) = none ∧
      handleRecordAction (JVal.obj [("type", JVal.jstr "reduce")]) =
        HandlerAction.dropDelete) := by
  refine ⟨?_, ?_, ?_⟩
  · exact c3_codec_rejects_wrong_discriminant_or_missing_field.1 _ (by decide) (by decide)
  · exact c3_codec_rejects_wrong_discriminant_or_missing_field.2.1 _ "url" (by decide)
      (by decide) (by decide)
  · exact c3_codec_rejects_wrong_discriminant_or_missing_field.2.2 _ "prompt" (by decide)
      (by decide) (by decide)

/-- C4: the persisted `date` is indeed the canonical fixed-length UTC
normalization of the input date (`toIsoUtc "2024-01-15"` is
`"2024-01-15T00:00:00.000Z"`), but the persisted `month` is NOT
recomputed from it: when the input record carries a `month`, `storeData`
keeps that value verbatim (merely format-checked), contradicting the
documented invariant.  At `date = "2024-01-15"`, `month = "1999-12"`
the primary row is written with month `"1999-12"`, not `"2024-01"`. -/
theorem c4_month_kept_verbatim_failing_input :
    toIsoUtc "2024-01-15" = some "2024-01-15T00:00:00.000Z" ∧
    (storeDataItems monthMismatchArticle).map (fun x => (x.1.date, x.1.month)) =
      some ("2024-01-15T00:00:00.000Z", "1999-12") ∧
    ("1999-12" : String) ≠ "2024-01" := by
  refine ⟨by decide, by decide, by decide⟩

/-- C5 counterexample: the record with two categories, two named
participants, one keyword, a house and a meeting name produces ten thin
index rows beside the primary row, not eight. -/
theorem c5_counterexample :
    (storeDataItems sampleFanoutArticle).map (fun x => x.2.length) = some 10 ∧
    (storeDataItems sampleFanoutArticle).map (fun x => x.2.length) ≠ some 8 := by
  constructor <;> decide

/-- C5 (amended): a record with exactly two non-empty categories, two
participants with non-empty names, one keyword with a non-empty value,
a non-empty house and a non-empty meeting name fans out into exactly one
primary row plus ten index rows (category times 2, person times 2,
keyword, recent-keyword, image-kind, session, house, meeting); with all
zero-valued facets empty only the unconditional image-kind and session
rows remain. -/
theorem c5_fanout_row_count (a : Article) :
    (∀ c1 c2 p1 p2 k1 main idx,
      a.categories = [c1, c2] → jsTrim c1 ≠ "" → jsTrim c2 ≠ "" →
      a.participants = [{ name := some p1 }, { name := some p2 }] →
      jsTrim p1 ≠ "" → jsTrim p2 ≠ "" →
      a.keywords = [{ keyword := some k1 }] → jsTrim k1 ≠ "" →
      jsTrim a.nameOfHouse ≠ "" → jsTrim a.nameOfMeeting ≠ "" →
      storeDataItems a = some (main, idx) → idx.length = 10) ∧
    (∀ main idx,
      a.categories = [] → a.participants = [] → a.keywords = [] →
      jsTrim a.nameOfHouse = "" → jsTrim a.nameOfMeeting = "" →
      storeDataItems a = some (main, idx) →
      idx.map (fun r => (r.PK, r.kind)) =
        [(kindKey a.imageKind, "IMAGEKIND_INDEX"),
         (sessionKey a.session, "SESSION_INDEX")]) := by
  constructor
  · intro c1 c2 p1 p2 k1 main idx hc hc1 hc2 hp hp1 hp2 hk hk1 hh hm hstore
    cases hiso : toIsoUtc a.date with
    | none => rw [storeDataItems, hiso] at hstore; cases hstore
    | some iso =>
        cases hmon : ensureYYYYMM (a.month.getD (iso.take 7)) with
        | none =>
            rw [storeDataItems, hiso] at hstore
            simp only [Option.bind_eq_bind, Option.some_bind] at hstore
            rw [hmon] at hstore; cases hstore
        | some monthNorm =>
            rw [storeDataItems, hiso] at hstore
            simp only [Option.bind_eq_bind, Option.some_bind] at hstore
            rw [hmon] at hstore
            simp only [Option.some_bind] at hstore
            have hidx := congrArg Prod.snd (Option.some.inj hstore)
            simp only at hidx
            rw [← hidx]
            simp [hc, hc1, hc2, hp, hp1, hp2, hk, hk1, hh, hm]
  · intro main idx hc hp hk hh hm hstore
    cases hiso : toIsoUtc a.date with
    | none => rw [storeDataItems, hiso] at hstore; cases hstore
    | some iso =>
        cases hmon : ensureYYYYMM (a.month.getD (iso.take 7)) with
        | none =>
            rw [storeDataItems, hiso] at hstore
            simp only [Option.bind_eq_bind, Option.some_bind] at hstore
            rw [hmon] at hstore; cases hstore
        | some monthNorm =>
            rw [storeDataItems, hiso] at hstore
            simp only [Option.bind_eq_bind, Option.some_bind] at hstore
            rw [hmon] at hstore
            simp only [Option.some_bind] at hstore
            have hidx := congrArg Prod.snd (Option.some.inj hstore)
            simp only at hidx
            rw [← hidx]
            simp [hc, hp, hk, hh, hm]

/-- Witness for C5 at the sample record (and its all-empty variant). -/
theorem c5_fanout_row_count_witness :
    (∀ main idx, storeDataItems sampleFanoutArticle = some (main, idx) →
      idx.length = 10) ∧
    (∀ main idx,
      storeDataItems emptyFacetArticle = some (main, idx) →
      idx.map (fun r => (r.PK, r.kind)) =
        [(kindKey sampleFanoutArticle.imageKind, "IMAGEKIND_INDEX"),
         (sessionKey sampleFanoutArticle.session, "SESSION_INDEX")]) := by
  constructor
  · intro main idx h
    exact (c5_fanout_row_count sampleFanoutArticle).1 "c1" "c2" "p1" "p2" "k1" main idx
      (by decide) (by decide) (by decide) (by decide) (by decide) (by decide)
      (by decide) (by decide) (by decide) (by decide) h
  · intro main idx h
    exact (c5_fanout_row_count emptyFacetArticle).2 main idx (by decide) (by decide)
      (by decide) (by decide) (by decide) h

theorem batchPutAll_isBatch (env : DdbEnv) :
    ∀ (fuel callIdx i : Nat) (items : List IdxItem) (e : DdbEvent),
      e ∈ (batchPutAll env fuel callIdx i items).1 → e.isBatch = true := by
  intro fuel
  induction fuel with
  | zero => intro _ _ _ e he; simp [batchPutAll] at he
  | succ n ih =>
      intro callIdx i items e he
      rw [batchPutAll] at he
      by_cases hlt : i < items.length
      · rw [if_pos hlt] at he
        by_cases hunp : (env.unprocessed callIdx ((items.drop i).take 25)).isEmpty
        · simp only [hunp, if_true] at he
          rcases List.mem_cons.mp he with rfl | hmem
          · rfl
          · exact ih _ _ _ e hmem
        · simp only [hunp, Bool.false_eq_true, if_false] at he
          rcases List.mem_cons.mp he with rfl | hmem
          · rfl
          · exact ih _ _ _ e hmem
      · rw [if_neg hlt] at he
        simp at he

/-- C6: in every execution of `storeData` in which any thin-index batch
write is issued, the very first emitted write is the put of the primary
(`PK = A#id, SK = META`) row — so the primary write happens before every
index write, and no index row is ever written when the primary put did
not succeed (a failed put throws before any batch is submitted). -/
theorem c6_primary_put_happens_first (env : DdbEnv) (a : Article)
    (hbatch : ∃ e ∈ (storeData env a).1, e.isBatch = true) :
    ∃ main rest, (storeData env a).1 = DdbEvent.putMain main :: rest ∧
      (∀ e ∈ rest, e.isBatch = true) ∧
      (storeDataItems a).map (fun x => x.1) = some main := by
  obtain ⟨e, he, hb⟩ := hbatch
  cases hitems : storeDataItems a with
  | none => simp [storeData, hitems] at he
  | some mi =>
      obtain ⟨main, idx⟩ := mi
      by_cases hput : env.putOk
      · refine ⟨main,
          (if idx.isEmpty then ([] : List DdbEvent)
            else (batchPutAll env env.fuel 0 0 idx).1), ?_, ?_, ?_⟩
        · simp [storeData, hitems, hput]
        · intro e2 he2
          by_cases hidx : idx.isEmpty
          · simp [hidx] at he2
          · simp only [hidx, Bool.false_eq_true, if_false] at he2
            exact batchPutAll_isBatch env _ _ _ _ e2 he2
        · simp [hitems]
      · simp [storeData, hitems, hput] at he

/-- Witness for C6 at the sample record and an all-accepting table. -/
theorem c6_primary_put_happens_first_witness :
    ∃ main rest,
      (storeData ddbSampleEnv sampleFanoutArticle).1 = DdbEvent.putMain main :: rest ∧
      (∀ e ∈ rest, e.isBatch = true) ∧
      (storeDataItems sampleFanoutArticle).map (fun x => x.1) = some main :=
  c6_primary_put_happens_first ddbSampleEnv sampleFanoutArticle (by decide)

/-- C7: `pickDelaySeconds` returns a finite upstream hint clamped into
`[0, backoffCapSeconds]`; with no (or a non-finite) hint it returns the
uniform sample scaled by `min(backoffCapSeconds,
backoffBaseSeconds * 2 ^ (attempt - 1))` — the image of the uniform
`[0, 1)` sample under that scaling, i.e. a value uniformly distributed
in the pre-jitter interval; with base 1, cap 60 and attempt 5 the
pre-jitter ceiling is 16 and the returned delay lies in `[0, 16]`. -/
theorem c7_pick_delay_seconds (cfg : Config) :
    (∀ (q : Rat) (attempt : Int) (u : Rat),
      pickDelaySeconds cfg (RetryAfterHint.finite q) attempt u =
        min (max 0 q) cfg.backoffCapSeconds) ∧
    (∀ (attempt : Int) (u : Rat),
      pickDelaySeconds cfg RetryAfterHint.noneGiven attempt u =
        u * min cfg.backoffCapSeconds
          (cfg.backoffBaseSeconds * (2 : Rat) ^ (attempt - 1))) ∧
    (∀ (attempt : Int) (u : Rat),
      pickDelaySeconds cfg RetryAfterHint.nonFinite attempt u =
        u * min cfg.backoffCapSeconds
          (cfg.backoffBaseSeconds * (2 : Rat) ^ (attempt - 1))) ∧
    (min (60 : Rat) ((1 : Rat) * (2 : Rat) ^ ((5 : Int) - 1)) = 16) ∧
    (∀ u : Rat, 0 ≤ u → u < 1 →
      0 ≤ pickDelaySeconds { backoffBaseSeconds := 1, backoffCapSeconds := 60 }
            RetryAfterHint.noneGiven 5 u ∧
      pickDelaySeconds { backoffBaseSeconds := 1, backoffCapSeconds := 60 }
            RetryAfterHint.noneGiven 5 u ≤ 16) := by
  have h16 : min (60 : Rat) ((1 : Rat) * (2 : Rat) ^ ((5 : Int) - 1)) = 16 := by
    norm_num
  refine ⟨fun q attempt u => rfl, fun attempt u => rfl, fun attempt u => rfl, h16, ?_⟩
  intro u hu0 hu1
  have hpick : pickDelaySeconds { backoffBaseSeconds := 1, backoffCapSeconds := 60 }
      RetryAfterHint.noneGiven 5 u = u * 16 := by
    show u * min (60 : Rat) ((1 : Rat) * (2 : Rat) ^ ((5 : Int) - 1)) = u * 16
    rw [h16]
  rw [hpick]
  constructor
  · positivity
  · nlinarith

/-- Witness for C7 at the uniform sample `0`. -/
theorem c7_pick_delay_seconds_witness :
    0 ≤ pickDelaySeconds { backoffBaseSeconds := 1, backoffCapSeconds := 60 }
          RetryAfterHint.noneGiven 5 0 ∧
    pickDelaySeconds { backoffBaseSeconds := 1, backoffCapSeconds := 60 }
          RetryAfterHint.noneGiven 5 0 ≤ 16 :=
  (c7_pick_delay_seconds { backoffBaseSeconds := 1, backoffCapSeconds := 60 }).2.2.2.2
    0 le_rfl (by decide)

theorem dedupeGo_absorb (k : JVal → JVal) :
    ∀ (l T S : List JVal), (∀ x ∈ T, x ∈ S) →
      dedupeGo k S (dedupeGo k T l) = dedupeGo k S l := by
  intro l
  induction l with
  | nil => intro T S hTS; rfl
  | cons x xs ih =>
      intro T S hTS
      by_cases hxT : k x ∈ T
      · have hxS : k x ∈ S := hTS _ hxT
        rw [dedupeGo, if_pos hxT, ih T S hTS, dedupeGo, if_pos hxS]
      · by_cases hxS : k x ∈ S
        · rw [dedupeGo, if_neg hxT, dedupeGo, if_pos hxS,
            ih (k x :: T) S (by
              intro y hy
              rcases List.mem_cons.mp hy with rfl | hy2
              · exact hxS
              · exact hTS _ hy2),
            dedupeGo, if_pos hxS]
        · rw [dedupeGo, if_neg hxT, dedupeGo, if_neg hxS,
            ih (k x :: T) (k x :: S) (by
              intro y hy
              rcases List.mem_cons.mp hy with rfl | hy2
              · exact List.mem_cons_self _ _
              · exact List.mem_cons_of_mem _ (hTS _ hy2)),
            dedupeGo, if_neg hxS]

theorem dedupeGo_append_inner (k : JVal → JVal) :
    ∀ (A S B : List JVal),
      dedupeGo k S (A ++ dedupeGo k [] B) = dedupeGo k S (A ++ B) := by
  intro A
  induction A with
  | nil =>
      intro S B
      simp only [List.nil_append]
      exact dedupeGo_absorb k B [] S (by intro x hx; simp at hx)
  | cons x A ih =>
      intro S B
      by_cases hx : k x ∈ S
      · rw [List.cons_append, dedupeGo, if_pos hx, List.cons_append, dedupeGo,
          if_pos hx, ih]
      · rw [List.cons_append, dedupeGo, if_neg hx, List.cons_append, dedupeGo,
          if_neg hx, ih]

theorem dedupeGo_pure (l : List JVal) :
    ∀ S, (∀ x ∈ l, IsJsonPure x) →
      dedupeGo canon S l = dedupeGo (fun x => x) S l := by
  induction l with
  | nil => intro S _; rfl
  | cons x xs ih =>
      intro S hpure
      have hx : canon x = x := hpure x (List.mem_cons_self _ _)
      have hxs : ∀ y ∈ xs, IsJsonPure y := fun y hy =>
        hpure y (List.mem_cons_of_mem _ hy)
      by_cases hmem : x ∈ S
      · rw [dedupeGo, hx, if_pos hmem, dedupeGo, if_pos hmem, ih S hxs]
      · rw [dedupeGo, hx, if_neg hmem, dedupeGo, if_neg hmem, ih (x :: S) hxs]

theorem nvl_some_of_ne_null (x d : JVal) (h : x ≠ JVal.jnull) : nvl (some x) d = x := by
  cases x <;> first | rfl | exact absurd rfl h

theorem nvlOpt_some_of_ne_null (x : JVal) (d : Option JVal) (h : x ≠ JVal.jnull) :
    nvlOpt (some x) d = some x := by
  cases x <;> first | rfl | exact absurd rfl h

/-- C8 counterexample: scalar fields present in the parsed generator
output are not all taken from it — the built article draws
`nameOfHouse` and `id` from the queue message, ignoring the base
record's own values. -/
theorem c8_counterexample :
    (buildArticle mergeBase (chunkExtras mergeChunks) sampleReduceMsg).map
        (fun a => (a.nameOfHouse, a.id)) = some ("hh", "M1") ∧
    jget mergeBase "nameOfHouse" = some (JVal.jstr "X") ∧
    jget mergeBase "id" = some (JVal.jstr "zzz") ∧
    (("hh", "M1") : String × String) ≠ ("X", "zzz") := by
  refine ⟨by decide, by decide, by decide, by decide⟩

/-- C8 (amended): for every parsed generator output and list of chunk
results, the merged record's `dialogs`, `terms`, `keywords` and
`participants` each equal the base record's same-named array followed
by the flattened same-named arrays of all chunk results, deduplicated
by full-value equality with earlier (base) elements winning — provided
the values involved are JSON-pure, as everything produced by
`JSON.parse` is.  Scalar fields `title`, `month`, `categories`,
`description`, `middle_summary`, `session` take the base record's value
when present (and non-null), `imageKind`, `summary` and `soft_summary`
pass through verbatim, while `id`, `date`, `nameOfHouse` and
`nameOfMeeting` always come from the message, ignoring any base
values. -/
theorem c8_merge_union_fill (base : JVal) (chunks : List JVal)
    (message : ReducePromptTaskMessage) (a : ArticleJ)
    (hbuild : buildArticle base (chunkExtras chunks) message = some a) :
    ((∀ bd, spreadOrEmpty (jget base "dialogs") = some bd →
      (∀ x ∈ bd ++ flatField chunks "dialogs", IsJsonPure x) →
      a.dialogs = dedupeByValue (bd ++ flatField chunks "dialogs")) ∧
    (∀ bd, spreadOrEmpty (jget base "terms") = some bd →
      (∀ x ∈ bd ++ flatField chunks "terms", IsJsonPure x) →
      a.terms = dedupeByValue (bd ++ flatField chunks "terms")) ∧
    (∀ bd, spreadOrEmpty (jget base "keywords") = some bd →
      (∀ x ∈ bd ++ flatField chunks "keywords", IsJsonPure x) →
      a.keywords = dedupeByValue (bd ++ flatField chunks "keywords")) ∧
    (∀ bd, spreadOrEmpty (jget base "participants") = some bd →
      (∀ x ∈ bd ++ flatField chunks "participants", IsJsonPure x) →
      a.participants = dedupeByValue (bd ++ flatField chunks "participants"))) ∧
    ((∀ t, jget base "title" = some t → t ≠ JVal.jnull → a.title = t) ∧
    (∀ t, jget base "month" = some t → t ≠ JVal.jnull → a.month = t) ∧
    (∀ t, jget base "categories" = some t → t ≠ JVal.jnull → a.categories = t) ∧
    (∀ t, jget base "description" = some t → t ≠ JVal.jnull → a.description = t) ∧
    (∀ t, jget base "middle_summary" = some t → t ≠ JVal.jnull →
      a.middle_summary = t) ∧
    (∀ t, jget base "session" = some t → t ≠ JVal.jnull → a.session = some t) ∧
    a.imageKind = jget base "imageKind" ∧
    a.summary = jget base "summary" ∧
    a.soft_summary = jget base "soft_summary") ∧
    (a.id = message.meeting.issueID ∧ a.date = message.meeting.date ∧
    a.nameOfHouse = message.meeting.nameOfHouse ∧
    a.nameOfMeeting = message.meeting.nameOfMeeting) := by
  cases hd : spreadOrEmpty (jget base "dialogs") with
  | none => rw [buildArticle, hd] at hbuild; cases hbuild
  | some bd0 =>
  cases hp : spreadOrEmpty (jget base "participants") with
  | none =>
      rw [buildArticle, hd] at hbuild
      simp only [Option.bind_eq_bind, Option.some_bind] at hbuild
      rw [hp] at hbuild; cases hbuild
  | some bp0 =>
  cases hk : spreadOrEmpty (jget base "keywords") with
  | none =>
      rw [buildArticle, hd] at hbuild
      simp only [Option.bind_eq_bind, Option.some_bind] at hbuild
      rw [hp] at hbuild
      simp only [Option.some_bind] at hbuild
      rw [hk] at hbuild; cases hbuild
  | some bk0 =>
  cases ht : spreadOrEmpty (jget base "terms") with
  | none =>
      rw [buildArticle, hd] at hbuild
      simp only [Option.bind_eq_bind, Option.some_bind] at hbuild
      rw [hp] at hbuild
      simp only [Option.some_bind] at hbuild
      rw [hk] at hbuild
      simp only [Option.some_bind] at hbuild
      rw [ht] at hbuild; cases hbuild
  | some bt0 =>
  rw [buildArticle, hd] at hbuild
  simp only [Option.bind_eq_bind, Option.some_bind] at hbuild
  rw [hp] at hbuild
  simp only [Option.some_bind] at hbuild
  rw [hk] at hbuild
  simp only [Option.some_bind] at hbuild
  rw [ht] at hbuild
  simp only [Option.some_bind] at hbuild
  have ha := Option.some.inj hbuild
  subst ha
  have hmerge : ∀ (bd flatL : List JVal) (extrasL : List JVal),
      extrasL = dedupeGo canon [] flatL →
      (∀ x ∈ bd ++ flatL, IsJsonPure x) →
      dedupeByStringify (bd ++ extrasL) = dedupeByValue (bd ++ flatL) := by
    intro bd flatL extrasL hext hpure
    rw [dedupeByStringify, hext, dedupeGo_append_inner,
      dedupeGo_pure _ _ hpure]
    rfl
  refine ⟨⟨?_, ?_, ?_, ?_⟩, ⟨?_, ?_, ?_, ?_, ?_, ?_, ?_, ?_, ?_⟩, ?_, ?_, ?_, ?_⟩
  · intro bd hbd hpure
    obtain rfl := Option.some.inj hbd
    exact hmerge bd0 _ _ rfl hpure
  · intro bd hbd hpure
    obtain rfl := Option.some.inj hbd
    exact hmerge bt0 _ _ rfl hpure
  · intro bd hbd hpure
    obtain rfl := Option.some.inj hbd
    exact hmerge bk0 _ _ rfl hpure
  · intro bd hbd hpure
    obtain rfl := Option.some.inj hbd
    exact hmerge bp0 _ _ rfl hpure
  · intro t hget hnn
    rw [hget]
    exact nvl_some_of_ne_null t _ hnn
  · intro t hget hnn
    rw [hget]
    exact nvl_some_of_ne_null t _ hnn
  · intro t hget hnn
    rw [hget]
    exact nvl_some_of_ne_null t _ hnn
  · intro t hget hnn
    rw [hget]
    exact nvl_some_of_ne_null t _ hnn
  · intro t hget hnn
    rw [hget]
    exact nvl_some_of_ne_null t _ hnn
  · intro t hget hnn
    rw [hget]
    exact nvlOpt_some_of_ne_null t _ hnn
  · rfl
  · rfl
  · rfl
  · rfl
  · rfl
  · rfl
  · rfl

/-- Witness for C8 at the sample generator output and chunk results. -/
theorem c8_merge_union_fill_witness :
    mergeArticle.dialogs = dedupeByValue
      ([JVal.jstr "d2", JVal.jstr "d0"] ++ flatField mergeChunks "dialogs") ∧
    mergeArticle.nameOfHouse = sampleReduceMsg.meeting.nameOfHouse := by
  have h := c8_merge_union_fill mergeBase mergeChunks sampleReduceMsg mergeArticle
    (by decide)
  exact ⟨h.1.1 [JVal.jstr "d2", JVal.jstr "d0"] (by decide) (by decide), h.2.2.2.2.1⟩

theorem requeue_no_persist (sendOk : Bool) (message : PromptTaskMessage)
    (d : Rat) (a : ArticleJ) :
    SqsEvent.persist a ∉ (requeueWithDelay sendOk message d).1 := by
  cases sendOk <;> simp [requeueWithDelay]

theorem reduceBody_persist_eq (env : ReduceEnv) (message : ReducePromptTaskMessage)
    (a : ArticleJ) (hmem : SqsEvent.persist a ∈ (reduceBody env message).1) :
    ∃ base extras, buildArticle base extras message = some a := by
  rw [reduceBody] at hmem
  split at hmem
  next => simp at hmem
  next ms hms =>
    split at hmem
    next => exact absurd hmem (requeue_no_persist _ _ _ _)
    next =>
      split at hmem
      next => simp at hmem
      next chunkResults hload =>
        split at hmem
        next => simp at hmem
        next llmText hllm =>
          split at hmem
          next =>
            simp only [] at hmem
            split at hmem
            next => simp at hmem
            next article hba =>
              simp at hmem
              subst hmem
              exact ⟨_, _, hba⟩
          next =>
            simp only [] at hmem
            split at hmem
            next => simp at hmem
            next article hba =>
              simp at hmem
              subst hmem
              exact ⟨_, _, hba⟩

theorem buildArticle_id_date (base : JVal) (extras : ChunkExtras)
    (message : ReducePromptTaskMessage) (a : ArticleJ)
    (h : buildArticle base extras message = some a) :
    a.id = message.meeting.issueID ∧ a.date = message.meeting.date := by
  cases hd : spreadOrEmpty (jget base "dialogs") with
  | none => rw [buildArticle, hd] at h; cases h
  | some bd =>
  cases hp : spreadOrEmpty (jget base "participants") with
  | none =>
      rw [buildArticle, hd] at h
      simp only [Option.bind_eq_bind, Option.some_bind] at h
      rw [hp] at h; cases h
  | some bp =>
  cases hk : spreadOrEmpty (jget base "keywords") with
  | none =>
      rw [buildArticle, hd] at h
      simp only [Option.bind_eq_bind, Option.some_bind] at h
      rw [hp] at h
      simp only [Option.some_bind] at h
      rw [hk] at h; cases h
  | some bk =>
  cases ht : spreadOrEmpty (jget base "terms") with
  | none =>
      rw [buildArticle, hd] at h
      simp only [Option.bind_eq_bind, Option.some_bind] at h
      rw [hp] at h
      simp only [Option.some_bind] at h
      rw [hk] at h
      simp only [Option.some_bind] at h
      rw [ht] at h; cases h
  | some bt =>
      rw [buildArticle, hd] at h
      simp only [Option.bind_eq_bind, Option.some_bind] at h
      rw [hp] at h
      simp only [Option.some_bind] at h
      rw [hk] at h
      simp only [Option.some_bind] at h
      rw [ht] at h
      simp only [Option.some_bind] at h
      have ha := Option.some.inj h
      subst ha
      exact ⟨rfl, rfl⟩

/-- C9: whenever a reduce execution reaches persistence, the persisted
record's `id` equals the message's `meeting.issueID` and its `date`
equals the message's `meeting.date`, whatever `id` or `date` the parsed
generator output carried. -/
theorem c9_persisted_id_date_from_message (env : ReduceEnv)
    (message : ReducePromptTaskMessage) (a : ArticleJ)
    (hmem : SqsEvent.persist a ∈ (processReduceRecord env message).1) :
    a.id = message.meeting.issueID ∧ a.date = message.meeting.date := by
  rw [processReduceRecord] at hmem
  by_cases hb : (reduceBody env message).2
  · simp only [hb, if_true, List.mem_append] at hmem
    rcases hmem with h | h
    · obtain ⟨b, e, hba⟩ := reduceBody_persist_eq env message a h
      exact buildArticle_id_date b e message a hba
    · exact absurd h (requeue_no_persist _ _ _ _)
  · simp only [hb, if_false] at hmem
    obtain ⟨b, e, hba⟩ := reduceBody_persist_eq env message a hmem
    exact buildArticle_id_date b e message a hba

/-- Witness for C9 at the sample happy-path run. -/
theorem c9_persisted_id_date_from_message_witness :
    SqsEvent.persist happyArticle ∈ (processReduceRecord happyEnv sampleReduceMsg).1 ∧
    happyArticle.id = sampleReduceMsg.meeting.issueID ∧
    happyArticle.date = sampleReduceMsg.meeting.date := by
  have hmem : SqsEvent.persist happyArticle ∈
      (processReduceRecord happyEnv sampleReduceMsg).1 := by decide
  exact ⟨hmem, c9_persisted_id_date_from_message happyEnv sampleReduceMsg
    happyArticle hmem⟩

/-- C10: `ensureObjectExists` answers `true` exactly on a successful
HEAD; it answers `false` (instead of throwing) both for an absent blob
(status 404 or a `NotFound` error name or code) and for a forbidden one
(status 403); consequently a reduce task one of whose dependency blobs
is HEAD-answered with 403 is handled as a missing dependency — the task
is requeued with its own delay hint and no error surfaces. -/
theorem c10_ensure_object_exists_404_403 :
    (∀ o : HeadOutcome, ensureObjectExists o = some true ↔ o = HeadOutcome.ok) ∧
    (∀ (st : Option Int) (nm cd : Option String),
      st = some 404 ∨ nm = some "NotFound" ∨ cd = some "NotFound" →
      ensureObjectExists (HeadOutcome.errored st nm cd) = some false) ∧
    (∀ nm cd : Option String,
      ensureObjectExists (HeadOutcome.errored (some 403) nm cd) = some false) ∧
    (∀ (env : ReduceEnv) (message : ReducePromptTaskMessage) (u : String)
      (bk : String × String) (nm cd : Option String),
      env.sendOk = true →
      u ∈ dedupFirst message.chunk_result_urls →
      parseS3Uri u = some bk →
      env.head bk.1 bk.2 = HeadOutcome.errored (some 403) nm cd →
      processReduceRecord env message =
        ([SqsEvent.send (bumpRetryAttempts (PromptTaskMessage.reduce message))
            (safeDelaySeconds message.retryMs_in), SqsEvent.ack], false)) := by
  have h403 : ∀ nm cd : Option String,
      ensureObjectExists (HeadOutcome.errored (some 403) nm cd) = some false := by
    intro nm cd
    by_cases hnm : nm = some "NotFound" <;> by_cases hcd : cd = some "NotFound" <;>
      simp [ensureObjectExists, hnm, hcd]
  refine ⟨?_, ?_, h403, ?_⟩
  · intro o
    cases o with
    | ok => simp [ensureObjectExists]
    | errored st nm cd =>
        simp only [ensureObjectExists]
        constructor
        · intro h
          split at h
          · cases h
          · split at h
            · cases h
            · cases h
        · intro h; cases h
  · intro st nm cd h
    rcases h with h | h | h <;> simp [ensureObjectExists, h]
  · intro env message u bk nm cd hsend hu hparse hhead
    have hcheck : checkUri env u = some false := by
      rw [checkUri, hparse]
      show ensureObjectExists (env.head bk.1 bk.2) = some false
      rw [hhead]
      exact h403 nm cd
    exact reduce_missing_requeue env message hsend ⟨u, hu, hcheck⟩

/-- Witness for C10 at concrete outcomes and the forbidden-blob
environment. -/
theorem c10_ensure_object_exists_404_403_witness :
    ensureObjectExists HeadOutcome.ok = some true ∧
    ensureObjectExists (HeadOutcome.errored (some 404) none none) = some false ∧
    ensureObjectExists (HeadOutcome.errored (some 403) none none) = some false ∧
    processReduceRecord headForbiddenEnv sampleReduceMsg =
      ([SqsEvent.send (bumpRetryAttempts (PromptTaskMessage.reduce sampleReduceMsg)) 120,
        SqsEvent.ack], false) := by
  refine ⟨?_, ?_, ?_, ?_⟩
  · exact (c10_ensure_object_exists_404_403.1 HeadOutcome.ok).mpr rfl
  · exact c10_ensure_object_exists_404_403.2.1 (some 404) none none (Or.inl rfl)
  · exact c10_ensure_object_exists_404_403.2.2.1 none none
  · have h := c10_ensure_object_exists_404_403.2.2.2 headForbiddenEnv sampleReduceMsg
      "s3://b/k1" ("b", "k1") none none rfl (by decide) (by decide) (by decide)
    have hd : safeDelaySeconds (sampleReduceMsg.retryMs_in) = 120 := by decide
    rw [hd] at h
    exact h

end PoliTopics
